import Mathlib

/-!
Verification of the eventos-madrid extraction pipeline.

Shallow embedding of the Python sources:
  backend/agents/supervisor_agent.py
  backend/agents/orchestrator.py
  backend/agents/ssreyes_agent.py
  backend/services/event_normalizer.py
  backend/tools/temporal_analysis_tools.py
  backend/tools/content_prioritization_tools.py

Python dictionaries are modelled as association lists, machine floats as
rationals, dates as a record of integers, exceptions as Option/Except
results, and Python's bounded recursion as an explicit fuel parameter.
External capabilities (the LLM judgment, the scraping agents, hashlib's
sha256) are passed in as function parameters.
-/

namespace EventosMadrid

/-! ## Python string primitives (character-list based) -/

/-- Whitespace characters recognised by Python's `str.strip` and `\s`. -/
def isWsChar (c : Char) : Bool :=
  c = ' ' || c = '\t' || c = '\n' || c = '\r' ||
  c = Char.ofNat 11 || c = Char.ofNat 12

/-- Lower-case map for ASCII letters and the Spanish accented letters
that occur in the sources. -/
def lowerChar (c : Char) : Char :=
  if 'A' ≤ c ∧ c ≤ 'Z' then Char.ofNat (c.toNat + 32)
  else if c = 'Á' then 'á' else if c = 'É' then 'é'
  else if c = 'Í' then 'í' else if c = 'Ó' then 'ó'
  else if c = 'Ú' then 'ú' else if c = 'Ñ' then 'ñ'
  else if c = 'Ü' then 'ü' else c

/-- Upper-case map, converse of `lowerChar`. -/
def upperChar (c : Char) : Char :=
  if 'a' ≤ c ∧ c ≤ 'z' then Char.ofNat (c.toNat - 32)
  else if c = 'á' then 'Á' else if c = 'é' then 'É'
  else if c = 'í' then 'Í' else if c = 'ó' then 'Ó'
  else if c = 'ú' then 'Ú' else if c = 'ñ' then 'Ñ'
  else if c = 'ü' then 'Ü' else c

/-- Letters, for Python's notion of cased characters in `str.title`. -/
def isAlphaChar (c : Char) : Bool :=
  ('a' ≤ c ∧ c ≤ 'z') || ('A' ≤ c ∧ c ≤ 'Z') ||
  c ∈ ['á', 'é', 'í', 'ó', 'ú', 'ñ', 'ü', 'Á', 'É', 'Í', 'Ó', 'Ú', 'Ñ', 'Ü']

def isDigitChar (c : Char) : Bool := '0' ≤ c ∧ c ≤ '9'

/-- Python `min` on two rationals, kept kernel-computable. -/
def ratMin (a b : ℚ) : ℚ := if a ≤ b then a else b

/-- Python `max` on two rationals, kept kernel-computable. -/
def ratMax (a b : ℚ) : ℚ := if a ≤ b then b else a

/-- Python `abs` on a machine integer, as a rational. -/
def intAbsQ (i : Int) : ℚ := ((i.natAbs : Int) : ℚ)

def pyLower (s : String) : String := String.mk (s.data.map lowerChar)

def pyUpper (s : String) : String := String.mk (s.data.map upperChar)

/-- Python `str.strip()`. -/
def pyStrip (s : String) : String :=
  String.mk (((s.data.dropWhile isWsChar).reverse.dropWhile isWsChar).reverse)

/-- Substring test, Python's `needle in haystack` (character level). -/
def lcContains (hay needle : List Char) : Bool :=
  needle.isPrefixOf hay ||
    match hay with
    | [] => false
    | _ :: t => lcContains t needle

def pyIn (needle hay : String) : Bool := lcContains hay.data needle.data

/-- Python `str.startswith`, character-level. -/
def pyStartsWith (s p : String) : Bool := p.data.isPrefixOf s.data

/-- Split on a non-empty separator (Python `str.split(sep)` semantics);
`fuel` bounds the scan and callers pass the string length plus one,
which always suffices. -/
def lcSplitOnF (sep : List Char) : Nat → List Char → List Char → List (List Char)
  | 0, cur, l => [cur ++ l]
  | _ + 1, cur, [] => [cur]
  | f + 1, cur, c :: t =>
      if sep ≠ [] ∧ sep.isPrefixOf (c :: t) then
        cur :: lcSplitOnF sep f [] ((c :: t).drop sep.length)
      else lcSplitOnF sep f (cur ++ [c]) t

def pySplit (s sep : String) : List String :=
  (lcSplitOnF sep.data (s.data.length + 1) [] s.data).map String.mk

/-- Python `str.title()`: the first cased character of each cased run is
upper-cased, the rest lower-cased. -/
def pyTitleGo : Bool → List Char → List Char
  | _, [] => []
  | prevCased, c :: t =>
      let c' := if isAlphaChar c then (if prevCased then lowerChar c else upperChar c) else c
      c' :: pyTitleGo (isAlphaChar c) t

def pyTitle (s : String) : String := String.mk (pyTitleGo false s.data)

/-- Whitespace-collapse used as `re.sub(r"\s+", " ", s.strip())`:
split on whitespace runs and rejoin with single blanks. -/
def collapseWs (s : String) : String :=
  String.intercalate " " (((s.data.splitOnP (isWsChar ·)).map String.mk).filter (· ≠ ""))

/-- Whitespace-separated words of a string (used to model regex scans
over free text at the token level). -/
def wordsOf (s : String) : List String :=
  ((s.data.splitOnP (isWsChar ·)).map String.mk).filter (· ≠ "")

/-- Python `str.replace` (all occurrences), character-level; `fuel`
bounds the scan (the wrapper passes the haystack length, which always
suffices since each step consumes at least one character). -/
def lcReplaceF : Nat → List Char → List Char → List Char → List Char
  | 0, hay, _, _ => hay
  | _ + 1, [], _, _ => []
  | f + 1, c :: t, needle, repl =>
      if needle ≠ [] ∧ needle.isPrefixOf (c :: t) then
        repl ++ lcReplaceF f ((c :: t).drop needle.length) needle repl
      else c :: lcReplaceF f t needle repl

def pyReplace (s needle repl : String) : String :=
  String.mk (lcReplaceF s.data.length s.data needle.data repl.data)

/-- Take the first `n` characters, Python slice `s[:n]`. -/
def pyTake (s : String) (n : Nat) : String := String.mk (s.data.take n)

def strLen (s : String) : Nat := s.data.length

/-! ## Python float parsing (subset used for price ceilings) -/

/-- Parse the digits of a character list as a natural number (empty → none). -/
def digitsToNat : List Char → Option Nat
  | [] => none
  | l => some (l.foldl (fun a c => a * 10 + (c.toNat - '0'.toNat)) 0)

/-- Python `float(s)` on the plain decimal forms `[+|-]ddd[.ddd]`,
`[+|-].ddd`, `[+|-]ddd.` after stripping whitespace; other forms are
treated as unparseable (ValueError → none). -/
def pyFloat (s : String) : Option ℚ :=
  let l := (pyStrip s).data
  let (sign, l) : ℚ × List Char :=
    match l with
    | '-' :: t => (-1, t)
    | '+' :: t => (1, t)
    | t => (1, t)
  let intPart := l.takeWhile isDigitChar
  let rest := l.dropWhile isDigitChar
  match rest with
  | [] =>
      match digitsToNat intPart with
      | some n => some (sign * n)
      | none => none
  | '.' :: fracChars =>
      if fracChars.all isDigitChar ∧ (intPart ≠ [] ∨ fracChars ≠ []) then
        let ip := (digitsToNat intPart).getD 0
        let fp := (digitsToNat fracChars).getD 0
        some (sign * (ip + (fp : ℚ) / (10 : ℚ) ^ fracChars.length))
      else none
  | _ => none

/-! ## Dates (Python `datetime.date`) -/

/-- A Python `date` value; fields mirror `date.year/month/day`. -/
structure PDate where
  year : Int
  month : Int
  day : Int
  deriving DecidableEq, Repr

/-- Gregorian leap-year test. -/
def isLeap (y : Int) : Bool := (y % 4 = 0 ∧ y % 100 ≠ 0) ∨ y % 400 = 0

def daysInMonth (y m : Int) : Int :=
  if m = 2 then (if isLeap y then 29 else 28)
  else if m ∈ [4, 6, 9, 11] then 30 else 31

/-- Validity of `date(y, m, d)` arguments (else Python raises ValueError). -/
def validDate (y m d : Int) : Bool :=
  1 ≤ y ∧ y ≤ 9999 ∧ 1 ≤ m ∧ m ≤ 12 ∧ 1 ≤ d ∧ d ≤ daysInMonth y m

def cumDaysBeforeMonth (m : Int) : Int :=
  if m ≤ 1 then 0 else if m = 2 then 31 else if m = 3 then 59
  else if m = 4 then 90 else if m = 5 then 120 else if m = 6 then 151
  else if m = 7 then 181 else if m = 8 then 212 else if m = 9 then 243
  else if m = 10 then 273 else if m = 11 then 304 else 334

/-- Proleptic-Gregorian ordinal of a date (day count, so that the
difference of two ordinals is Python's `(a - b).days`). -/
def dateOrdinal (d : PDate) : Int :=
  let y := d.year - 1
  365 * y + Int.fdiv y 4 - Int.fdiv y 100 + Int.fdiv y 400 +
    cumDaysBeforeMonth d.month +
    (if d.month > 2 ∧ isLeap d.year then 1 else 0) + d.day

/-- ISO rendering `str(date)`, e.g. `2025-07-01`. -/
def pad2 (n : Int) : String :=
  if n < 10 then "0" ++ toString n else toString n

def dateIso (d : PDate) : String :=
  toString d.year ++ "-" ++ pad2 d.month ++ "-" ++ pad2 d.day

/-! ## Python values: dictionary entries of an event record -/

/-- Values stored in the event dictionaries: strings, parsed dates,
Python `None`, and one level of nested string dictionary
(the `datos_extra` map). -/
inductive Val where
  | s (v : String)
  | dt (v : PDate)
  | nil
  | obj (kvs : List (String × String))
  deriving DecidableEq, Repr

/-- Python truthiness of a stored value. -/
def pyTruthy : Val → Bool
  | .s v => v ≠ ""
  | .dt _ => true
  | .nil => false
  | .obj kvs => kvs ≠ []

/-- Python `str()` of a stored value (used by f-strings in the source). -/
def pyStr : Val → String
  | .s v => v
  | .dt d => dateIso d
  | .nil => "None"
  | .obj kvs =>
      "\x7b" ++ String.intercalate ", "
        (kvs.map (fun kv => "\x27" ++ kv.1 ++ "\x27: \x27" ++ kv.2 ++ "\x27")) ++ "\x7d"

/-- An event dictionary (insertion-ordered association list with unique
keys, as a Python dict). -/
def EvDict := List (String × Val)

instance : DecidableEq EvDict := by unfold EvDict; infer_instance

/-- Dictionary lookup `d.get(k)` (first binding). -/
def dget (d : EvDict) (k : String) : Option Val :=
  (d.find? (fun kv => kv.1 = k)).map (·.2)

/-- Dictionary update `d[k] = v`: replaces the first binding of `k`
in place, else appends (Python dict insertion-order semantics). -/
def dset (d : EvDict) (k : String) (v : Val) : EvDict :=
  match d with
  | [] => [(k, v)]
  | (k', v') :: t => if k' = k then (k, v) :: t else (k', v') :: dset t k v

/-- Raw extracted record: source field names to extracted values
(a string, or Python `None`). -/
def RawRecord := List (String × Option String)

instance : DecidableEq RawRecord := by unfold RawRecord; infer_instance

def rawGet (r : RawRecord) (k : String) : Option (Option String) :=
  (r.find? (fun kv => kv.1 = k)).map (·.2)

/-- Truthiness of a raw field value (`None` and `""` are falsy). -/
def rawTruthy : Option String → Bool
  | none => false
  | some v => v ≠ ""

/-! ## Event normalizer (backend/services/event_normalizer.py) -/

/-- The fixed category set `EventNormalizer.CATEGORIAS_VALIDAS`. -/
def CATEGORIAS_VALIDAS : List String :=
  ["Cultura", "Deporte y Salud", "Formación", "Cine", "Paseos y Excursiones", "Ocio y Social"]

/-- Keyword table `EventNormalizer.CATEGORIA_KEYWORDS`, in insertion order. -/
def CATEGORIA_KEYWORDS : List (String × List String) :=
  [("Cultura", ["teatro", "música", "concierto", "museo", "exposición", "cultura", "arte", "ópera"]),
   ("Deporte y Salud", ["deporte", "gimnasia", "caminar", "salud", "ejercicio", "físico", "yoga", "pilates"]),
   ("Formación", ["taller", "curso", "charla", "conferencia", "formación", "aprender", "educación"]),
   ("Cine", ["cine", "película", "film", "documental", "proyección", "cortometraje"]),
   ("Paseos y Excursiones", ["paseo", "excursión", "visita", "ruta", "senderismo", "parque", "jardín"]),
   ("Ocio y Social", ["fiesta", "encuentro", "social", "baile", "juegos", "tertulia", "actividad"])]

/-- `_normalize_title`: collapse whitespace, title-case, truncate at 200. -/
def normalize_title (t : String) : String :=
  if t = "" then ""
  else
    let t := collapseWs (pyStrip t)
    let t := pyTitle t
    if strLen t > 200 then pyTake t 197 ++ "..." else t

/-- Free-price vocabulary from `_normalize_price`. -/
def freeWords : List String :=
  ["gratis", "gratuito", "libre", "sin coste", "entrada libre", "free"]

/-- First match of the regex `\d+(?:[,\.]\d{1,2})?` (greedy), as used by
`re.findall(...)[0]` in `_normalize_price`. -/
def firstNumericTokenGo : List Char → Option (List Char)
  | [] => none
  | c :: t =>
      if isDigitChar c then
        let run := (c :: t).takeWhile isDigitChar
        let rest := (c :: t).drop run.length
        some (run ++
          match rest with
          | sep :: d1 :: more =>
              if (sep = ',' ∨ sep = '.') ∧ isDigitChar d1 then
                sep :: d1 ::
                  (match more with
                   | d2 :: _ => if isDigitChar d2 then [d2] else []
                   | [] => [])
              else []
          | _ => [])
      else firstNumericTokenGo t

def firstNumericToken (s : String) : Option String :=
  (firstNumericTokenGo s.data).map String.mk

/-- `_normalize_price` on a string argument. -/
def normalize_price (precio : String) : String :=
  if precio = "" then "Gratis"
  else
    let precio_lower := pyStrip (pyLower precio)
    if freeWords.any (fun w => pyIn w precio_lower) then "Gratis"
    else
      match firstNumericToken precio with
      | some tok => pyReplace tok "," "." ++ "€"
      | none => if strLen precio < 20 then precio else "Consultar precio"

/-- `_normalize_price` applied to the dictionary value
`evento.get("precio", "")`; a falsy value (None, empty string, empty
dict) short-circuits to "Gratis" and a truthy non-string raises
(AttributeError on `.lower()`), modelled as `none`. -/
def normalizePriceVal : Val → Option String
  | v =>
      if ¬ pyTruthy v then some "Gratis"
      else match v with
        | .s p => some (normalize_price p)
        | _ => none

/-- Category inference from title and description keywords
(`_normalize_category`, fallback path). -/
def inferCategory (e : EvDict) : String :=
  let texto := pyLower
    (pyStr ((dget e "titulo").getD (.s "")) ++ " " ++ pyStr ((dget e "descripcion").getD (.s "")))
  match CATEGORIA_KEYWORDS.find? (fun ck => ck.2.any (fun kw => pyIn kw texto)) with
  | some ck => ck.1
  | none => "Ocio y Social"

/-- `_normalize_category`: keep an already-valid category, else infer,
else default to "Ocio y Social". -/
def normalize_category (e : EvDict) : String :=
  match (dget e "categoria").getD (.s "") with
  | .s c => if c ∈ CATEGORIAS_VALIDAS then c else inferCategory e
  | _ => inferCategory e

/-- Parse a numeric strptime field: all digits, length within the given
bounds, value within the given bounds. -/
def parseNumField (s : String) (loLen hiLen : Nat) (loV hiV : Int) : Option Int :=
  if s.data ≠ [] ∧ s.data.all isDigitChar ∧ loLen ≤ s.data.length ∧ s.data.length ≤ hiLen then
    match digitsToNat s.data with
    | some n => if loV ≤ (n : Int) ∧ (n : Int) ≤ hiV then some n else none
    | none => none
  else none

/-- strptime on a `%d SEP %m SEP %Y` (or `%y`) format: day 1-2 digits in
1..31, month 1-2 digits in 1..12, year exactly 4 digits (2 for `%y`,
mapped to 1969..2068); an impossible calendar date raises ValueError,
modelled as none. -/
def tryDMY (sep : String) (two : Bool) (s : String) : Option PDate :=
  match pySplit s sep with
  | [ds, ms, ys] => do
      let d ← parseNumField ds 1 2 1 31
      let m ← parseNumField ms 1 2 1 12
      let y ←
        if two then (parseNumField ys 2 2 0 99).map (fun v => if v ≥ 69 then 1900 + v else 2000 + v)
        else parseNumField ys 4 4 0 9999
      if validDate y m d then some ⟨y, m, d⟩ else none
  | _ => none

/-- strptime on `%Y SEP %m SEP %d`. -/
def tryYMD (sep : String) (s : String) : Option PDate :=
  match pySplit s sep with
  | [ys, ms, ds] => do
      let y ← parseNumField ys 4 4 0 9999
      let m ← parseNumField ms 1 2 1 12
      let d ← parseNumField ds 1 2 1 31
      if validDate y m d then some ⟨y, m, d⟩ else none
  | _ => none

/-- English month names: `%B` under the default C locale (strptime is
case-insensitive). -/
def englishMonthFull : List String :=
  ["january", "february", "march", "april", "may", "june", "july",
   "august", "september", "october", "november", "december"]

def englishMonthAbbr : List String :=
  ["jan", "feb", "mar", "apr", "may", "jun", "jul", "aug", "sep", "oct", "nov", "dec"]

/-- strptime on `%d de %B de %Y` (or `%b`). -/
def tryDeMonthDe (full : Bool) (s : String) : Option PDate :=
  match pySplit s " de " with
  | [ds, mons, ys] => do
      let d ← parseNumField ds 1 2 1 31
      let names := if full then englishMonthFull else englishMonthAbbr
      let idx ← names.indexOf? (pyLower mons)
      let m : Int := (idx : Nat) + 1
      let y ← parseNumField ys 4 4 0 9999
      if validDate y m d then some ⟨y, m, d⟩ else none
  | _ => none

/-- Match the fallback regex `(\d{1,2})[\/\-\.](\d{1,2})[\/\-\.](\d{4})`
at the head of a character list (greedy groups with backtracking). -/
def dateRegexSep (c : Char) : Bool := c = '/' || c = '-' || c = '.'

def grabDigits (l : List Char) (n : Nat) : Option (Nat × List Char) :=
  if (l.take n).length = n ∧ (l.take n).all isDigitChar then
    (digitsToNat (l.take n)).map (fun v => (v, l.drop n))
  else none

def dateRegexTail (d : Nat) (rest : List Char) : Option (Nat × Nat × Nat) := do
  match rest with
  | s1 :: r1 =>
      if dateRegexSep s1 then do
        let (m, r2) ← (grabDigits r1 2).filter (fun p => match p.2 with
            | s :: _ => dateRegexSep s
            | [] => false) <|> grabDigits r1 1
        match r2 with
        | s2 :: r3 =>
            if dateRegexSep s2 then do
              let (y, _) ← grabDigits r3 4
              pure (d, m, y)
            else none
        | [] => none
      else none
  | [] => none

def dateRegexAt (l : List Char) : Option (Nat × Nat × Nat) :=
  (do
    let (d, rest) ← (grabDigits l 2).filter (fun p => match p.2 with
        | s :: _ => dateRegexSep s
        | [] => false)
    dateRegexTail d rest) <|>
  (do
    let (d, rest) ← grabDigits l 1
    dateRegexTail d rest)

/-- `re.search` of the fallback date regex: earliest match wins. -/
def dateRegexSearch : List Char → Option (Nat × Nat × Nat)
  | [] => none
  | c :: t => dateRegexAt (c :: t) <|> dateRegexSearch t

/-- `_parse_date_string`: the ordered strptime formats, then the regex
fallback, then None. -/
def parse_date_string (s : String) : Option PDate :=
  let s := pyStrip s
  (tryDMY "/" false s) <|> (tryDMY "-" false s) <|> (tryDMY "." false s) <|>
  (tryDMY "/" true s) <|> (tryDMY "-" true s) <|> (tryDMY "." true s) <|>
  (tryYMD "-" s) <|> (tryYMD "/" s) <|>
  (tryDeMonthDe true s) <|> (tryDeMonthDe false s) <|>
  (match dateRegexSearch s.data with
   | some (d, m, y) => if validDate y m d then some ⟨y, m, d⟩ else none
   | none => none)

/-- `_normalize_date`: falsy → None; date stays; string parsed; any
other type → None. -/
def normalize_date (v : Val) : Option PDate :=
  if ¬ pyTruthy v then none
  else match v with
    | .dt d => some d
    | .s s => parse_date_string s
    | _ => none

/-- `_normalize_location`: whitespace join, title-case, truncate at 150. -/
def normalize_location (u : String) : String :=
  if u = "" then ""
  else
    let u := pyTitle (collapseWs u)
    if strLen u > 150 then pyTake u 147 ++ "..." else u

/-- Drop HTML tags, the regex `<[^>]+>` (a `<` with no later `>` or an
empty `<>` is kept verbatim); `fuel` bounds the scan and the wrapper
passes the text length, which always suffices. -/
def stripHtmlTagsF : Nat → List Char → List Char
  | 0, l => l
  | _ + 1, [] => []
  | f + 1, c :: t =>
      if c = '<' then
        let inner := t.takeWhile (· ≠ '>')
        match t.drop inner.length with
        | '>' :: r =>
            if inner = [] then c :: stripHtmlTagsF f t else stripHtmlTagsF f r
        | _ => c :: stripHtmlTagsF f t
      else c :: stripHtmlTagsF f t

/-- `_normalize_description`: strip tags, collapse whitespace, truncate
at 1000. -/
def normalize_description (d : String) : String :=
  if d = "" then ""
  else
    let d := String.mk (stripHtmlTagsF d.data.length d.data)
    let d := collapseWs (pyStrip d)
    if strLen d > 1000 then pyTake d 997 ++ "..." else d

/-- Set a key in a plain string dictionary (the nested `datos_extra`). -/
def sset (d : List (String × String)) (k v : String) : List (String × String) :=
  match d with
  | [] => [(k, v)]
  | (k', v') :: t => if k' = k then (k, v) :: t else (k', v') :: sset t k v

/-- `_apply_field_mapping`: map configured source fields to destination
fields (dotted `datos_extra.x` destinations fold into the nested map),
then preserve unmapped truthy source fields inside `datos_extra`.
Assigning into a non-dict `datos_extra` raises, modelled as none. -/
def applyMappedField (acc : Option EvDict) (src dst : String) (raw : RawRecord) : Option EvDict :=
  match acc with
  | none => none
  | some e =>
      match (rawGet raw src).bind id with
      | some s =>
          if s = "" then some e
          else if pyIn "." dst then
            (let parts := pySplit dst "."
             if parts.head? = some "datos_extra" then
               let sub := (parts.get? 1).getD ""
               match dget e "datos_extra" with
               | none => some (dset e "datos_extra" (.obj [(sub, s)]))
               | some (.obj kvs) => some (dset e "datos_extra" (.obj (sset kvs sub s)))
               | some _ => none
             else some e)
          else some (dset e dst (.s s))
      | none => some e

/-- The fold of unmapped truthy raw fields into the `datos_extra` map,
and the final conditional assignment (`if datos_extra:`); assigning an
item on a non-dict `datos_extra` raises, modelled as none. -/
def foldExtras (e : EvDict) (extras : List (String × Option String)) : Option EvDict :=
  match dget e "datos_extra" with
  | some (.obj kvs) =>
      let kvs2 := extras.foldl (fun a kv => sset a kv.1 (kv.2.getD "")) kvs
      if kvs2 ≠ [] then some (dset e "datos_extra" (.obj kvs2)) else some e
  | none =>
      let kvs2 := extras.foldl (fun a kv => sset a kv.1 (kv.2.getD "")) ([] : List (String × String))
      if kvs2 ≠ [] then some (dset e "datos_extra" (.obj kvs2)) else some e
  | some v =>
      if extras ≠ [] then none
      else if pyTruthy v then some (dset e "datos_extra" v) else some e

def apply_field_mapping (raw : RawRecord) (mapeo : List (String × String)) : Option EvDict :=
  match mapeo.foldl (fun acc sd => applyMappedField acc sd.1 sd.2 raw) (some ([] : EvDict)) with
  | none => none
  | some e =>
      foldExtras e
        (raw.filter (fun kv => (mapeo.find? (fun sd => sd.1 = kv.1)).isNone ∧ rawTruthy kv.2))

/-- Normalize one text field in place when present and truthy; a truthy
non-string raises inside the str helpers, modelled as none. -/
def normTextField (e : EvDict) (k : String) (f : String → String) : Option EvDict :=
  match dget e k with
  | some v =>
      if pyTruthy v then
        match v with
        | .s t => some (dset e k (.s (f t)))
        | _ => none
      else some e
  | none => some e

/-- Normalize one date field in place when present and truthy
(`_normalize_date` returning None stores the value None). -/
def normDateField (e : EvDict) (k : String) : EvDict :=
  match dget e k with
  | some v =>
      if pyTruthy v then
        dset e k (match normalize_date v with
          | some d => .dt d
          | none => .nil)
      else e
  | none => e

/-- `_normalize_fields`: title, price, category, dates, location,
description, in source order; a raised exception in any step is `none`. -/
def normalize_fields (e : EvDict) : Option EvDict :=
  match normTextField e "titulo" normalize_title with
  | none => none
  | some e =>
      match normalizePriceVal ((dget e "precio").getD (.s "")) with
      | none => none
      | some p =>
          let e := dset e "precio" (.s p)
          let e := dset e "categoria" (.s (normalize_category e))
          let e := normDateField e "fecha_inicio"
          let e := normDateField e "fecha_fin"
          match normTextField e "ubicacion" normalize_location with
          | none => none
          | some e => normTextField e "descripcion" normalize_description

/-- `_validate_event`: title present with length ≥ 3, start date truthy,
category in the fixed set. A non-string title would raise on `len`,
which `normalize_event` turns into None just as a False verdict does. -/
def validate_event (e : EvDict) : Bool :=
  (match dget e "titulo" with
   | some (.s t) => decide (t ≠ "") && decide (3 ≤ strLen t)
   | _ => false) &&
  pyTruthy ((dget e "fecha_inicio").getD .nil) &&
  (match dget e "categoria" with
   | some (.s c) => decide (c ∈ CATEGORIAS_VALIDAS)
   | _ => false)

/-- Key content of `_generate_hash`: the f-string
`f"{titulo}{fecha_inicio}{ubicacion}"` over normalized values. -/
def hashKeyContent (e : EvDict) : String :=
  pyStr ((dget e "titulo").getD (.s "")) ++
  pyStr ((dget e "fecha_inicio").getD (.s "")) ++
  pyStr ((dget e "ubicacion").getD (.s ""))

/-- `normalize_event`: field mapping, field normalization, validation,
fingerprint; any internal exception (none) or failed validation yields
None. `sha` is hashlib's sha256 hex digest, passed as a capability. -/
def normalize_event (sha : String → String) (raw : RawRecord)
    (mapeo : List (String × String)) : Option EvDict :=
  match apply_field_mapping raw mapeo with
  | none => none
  | some e =>
      match normalize_fields e with
      | none => none
      | some e2 =>
          if validate_event e2 then
            some (dset e2 "hash_contenido" (.s (sha (hashKeyContent e2))))
          else none

/-! ## Quality supervisor (backend/agents/supervisor_agent.py) -/

/-- Quality criteria loaded from the supervisor's YAML config (external
file, hence a parameter); fields mirror `criteria.get(...)` defaults. -/
structure Criteria where
  required_fields : List String
  valid_categories : List String
  max_price : ℚ
  min_events : Nat
  deriving Repr

/-- Result of `_automatic_validation`. -/
structure AutoValidation where
  valid_count : Nat
  invalid_count : Nat
  valid_events : List EvDict
  invalid_events : List (EvDict × List String)
  meets_minimum : Bool

def pyTruthyOpt : Option Val → Bool
  | none => false
  | some v => pyTruthy v

/-- Validity reasons for one event under `_automatic_validation`:
missing required fields, category outside the allow-list, parsed price
above the ceiling (unparseable or non-string price passes). -/
def eventReasons (crit : Criteria) (ev : EvDict) : List String :=
  let catOk : Bool :=
    match dget ev "categoria" with
    | some (.s c) => decide (c ∈ crit.valid_categories)
    | _ => false
  let priceHigh : Bool :=
    match (dget ev "precio").getD (.s "0") with
    | .s p =>
        match pyFloat (pyReplace (pyReplace p "€" "") "Gratis" "0") with
        | some q => decide (q > crit.max_price)
        | none => false
    | _ => false
  (crit.required_fields.filterMap (fun f =>
     if ¬ pyTruthyOpt (dget ev f) then some ("Missing field: " ++ f) else none)) ++
  (if ¬ crit.valid_categories.isEmpty ∧ ¬ catOk then ["Invalid category"] else []) ++
  (if priceHigh then ["Price too high"] else [])

/-- `_automatic_validation`: split events into valid and
reason-annotated invalid, count them, and compare against the minimum. -/
def automatic_validation (events : List EvDict) (crit : Criteria) : AutoValidation :=
  let valid := events.filter (fun ev => eventReasons crit ev = [])
  let invalid := (events.filter (fun ev => eventReasons crit ev ≠ [])).map
    (fun ev => (ev, eventReasons crit ev))
  { valid_count := valid.length
    invalid_count := invalid.length
    valid_events := valid
    invalid_events := invalid
    meets_minimum := valid.length ≥ crit.min_events }

/-- Parsed JSON reply of the judgment capability (fields may be absent). -/
structure LLMResp where
  decision : Option String
  reasoning : Option String

/-- Normalized judgment outcome used by the fusion rule. -/
structure LLMDecision where
  decision : String
  reasoning : String

/-- `_llm_supervision`: upper-case the reply's decision with defaults,
degrading to an ERROR decision when the call raises. -/
def llm_supervision (resp : Except String LLMResp) : LLMDecision :=
  match resp with
  | .ok r => ⟨pyUpper (r.decision.getD "ERROR"), r.reasoning.getD "No reasoning provided"⟩
  | .error e => ⟨"ERROR", "LLM supervision failed: " ++ e⟩

/-- Outcome of `_make_final_decision`. -/
structure FinalDecision where
  status : String
  reasoning : String
  approved_events : List EvDict
  rejected_events : List (EvDict × List String)

/-- `_make_final_decision`: the four-row fusion of the automatic
validation and the judgment, first match winning. -/
def make_final_decision (auto : AutoValidation) (llm : LLMDecision) : FinalDecision :=
  if ¬ auto.meets_minimum then
    ⟨"REJECTED", "Does not meet minimum quality criteria", [], auto.invalid_events⟩
  else if llm.decision = "APPROVE" ∧ auto.valid_count > 0 then
    ⟨"APPROVED", llm.reasoning, auto.valid_events, auto.invalid_events⟩
  else if llm.decision = "REJECT" then
    ⟨"REJECTED", llm.reasoning, [], auto.invalid_events⟩
  else
    ⟨"MANUAL_REVIEW", "Auto: " ++ toString auto.valid_count ++ " valid. LLM: " ++ llm.reasoning,
     [], []⟩

/-! ## Pipeline orchestrator (backend/agents/orchestrator.py) -/

/-- The always-present `validation_results` aggregate. -/
structure VRes where
  quality_score : ℚ
  total_extracted : Nat
  total_validated : Nat
  approval_rate : ℚ
  deriving DecidableEq, Repr

def zeroVRes : VRes := ⟨0, 0, 0, 0⟩

/-- Processing metadata consumed by the processing node
(`rejection_rate`, `total_raw`, `validated`, with zero defaults). -/
structure PMeta where
  rejection_rate : ℚ
  total_raw : Nat
  validated : Nat
  deriving DecidableEq, Repr

def zeroPMeta : PMeta := ⟨0, 0, 0⟩

/-- The shared `ScrapingState` TypedDict. -/
structure SState where
  url : String
  tipo : String
  schema_extraccion : List (String × String)
  mapeo_campos : List (String × String)
  configuracion_scraping : List (String × String)
  scraping_strategy : String
  scraped_data : List RawRecord
  scraping_errors : List String
  processed_events : List EvDict
  processing_errors : List String
  processing_metadata : PMeta
  supervision_decision : String
  supervision_reasoning : String
  approved_events : List EvDict
  rejected_events : List (EvDict × List String)
  validation_results : VRes
  execution_start : String
  execution_end : String
  total_duration : ℚ

/-- `supervise_quality`: automatic validation plus judged decision,
fused into the final state update; an unexpected exception inside the
supervisor (the `crash` parameter) degrades to an ERROR decision. -/
def supervise_quality (crit : Criteria) (llm : Except String LLMResp)
    (crash : Option String) (s : SState) : SState :=
  match crash with
  | some e =>
      { s with supervision_decision := "ERROR"
               supervision_reasoning := "Supervisor error: " ++ e
               approved_events := [] }
  | none =>
      let auto := automatic_validation s.processed_events crit
      let ld := llm_supervision llm
      let fin := make_final_decision auto ld
      { s with supervision_decision := fin.status
               supervision_reasoning := fin.reasoning
               approved_events := fin.approved_events
               rejected_events := fin.rejected_events }

/-- `_scraping_node`: run the scraping agent, catching a raised fault as
an appended scraping error. -/
def scraping_node (fS : SState → Except String SState) (s : SState) : SState :=
  match fS s with
  | .ok r => r
  | .error e => { s with scraping_errors := s.scraping_errors ++ ["Scraping node error: " ++ e] }

/-- `_processing_node`: run the processing agent, refresh
`validation_results` from the processing metadata, catch faults as
appended processing errors. -/
def processing_node (fP : SState → Except String SState) (s : SState) : SState :=
  match fP s with
  | .ok r =>
      { r with validation_results :=
          { quality_score := 1 - r.processing_metadata.rejection_rate
            total_extracted := r.processing_metadata.total_raw
            total_validated := r.processing_metadata.validated
            approval_rate := 1 - r.processing_metadata.rejection_rate } }
  | .error e => { s with processing_errors := s.processing_errors ++ ["Processing node error: " ++ e] }

/-- `_supervision_node`: delegate to `supervise_quality` (whose crash
parameter also covers the node-level catch, which likewise forces an
ERROR decision). -/
def supervision_node (crit : Criteria) (llm : Except String LLMResp)
    (crash : Option String) (s : SState) : SState :=
  supervise_quality crit llm crash s

/-- `_error_handler_node`: terminal ERROR-equivalent decision. -/
def error_handler_node (s : SState) : SState :=
  { s with supervision_decision := "ERROR"
           supervision_reasoning :=
             "Pipeline failed with " ++
               toString (s.scraping_errors.length + s.processing_errors.length) ++ " errors"
           approved_events := [] }

/-- `_should_continue_to_processing`: continue with data and no errors,
or with data and at most 2 errors; otherwise route to the handler. -/
def should_continue_to_processing (s : SState) : String :=
  if s.scraped_data ≠ [] ∧ s.scraping_errors.length = 0 then "continue"
  else if s.scraped_data ≠ [] ∧ s.scraping_errors.length ≤ 2 then "continue"
  else "error"

/-- `_should_continue_to_supervision`: continue iff events were processed. -/
def should_continue_to_supervision (s : SState) : String :=
  if s.processed_events ≠ [] then "continue" else "error"

/-- Graph nodes, for run traces. -/
inductive PNode where
  | scraping
  | processing
  | supervision
  | error_handler
  deriving DecidableEq, Repr

/-- The graph after the scraping node: conditional edges on the two
guards, ending at supervision or the error handler. Returns the final
state and the list of visited nodes. -/
def graph_from_scraping (fP : SState → Except String SState) (crit : Criteria)
    (llm : Except String LLMResp) (crash : Option String) (s1 : SState) :
    SState × List PNode :=
  if should_continue_to_processing s1 = "continue" then
    let s2 := processing_node fP s1
    if should_continue_to_supervision s2 = "continue" then
      (supervision_node crit llm crash s2, [.processing, .supervision])
    else
      (error_handler_node s2, [.processing, .error_handler])
  else
    (error_handler_node s1, [.error_handler])

/-- The compiled graph: START → scraping → (conditional edges) → END. -/
def run_graph (fS fP : SState → Except String SState) (crit : Criteria)
    (llm : Except String LLMResp) (crash : Option String) (s0 : SState) :
    SState × List PNode :=
  let s1 := scraping_node fS s0
  let (sf, tr) := graph_from_scraping fP crit llm crash s1
  (sf, .scraping :: tr)

/-- The fully initialized `ScrapingState` built by
`execute_scraping_pipeline` before invoking the graph. -/
def initial_state (url tipo : String) (schema mapeo config : List (String × String))
    (startIso : String) : SState :=
  { url := url
    tipo := tipo
    schema_extraccion := schema
    mapeo_campos := mapeo
    configuracion_scraping := config
    scraping_strategy := ""
    scraped_data := []
    scraping_errors := []
    processed_events := []
    processing_errors := []
    processing_metadata := zeroPMeta
    supervision_decision := ""
    supervision_reasoning := ""
    approved_events := []
    rejected_events := []
    validation_results := zeroVRes
    execution_start := startIso
    execution_end := ""
    total_duration := 0 }

/-- `execute_scraping_pipeline`: precondition checks raise before any
state is created (the `Except.error` results); then the graph runs, a
catastrophic graph failure (the `crash` parameter) being caught and
turned into an ERROR-decision state. Timing strings and the duration
are supplied by the caller's clock. -/
def execute_scraping_pipeline (fS fP : SState → Except String SState)
    (crit : Criteria) (llm : Except String LLMResp) (supCrash : Option String)
    (crash : Option String) (startIso endIso : String) (dur : ℚ)
    (url tipo : String) (schema mapeo config : List (String × String)) :
    Except String SState :=
  if ¬ (pyStartsWith url "http://" = true ∨ pyStartsWith url "https://" = true) then
    .error "Invalid URL provided"
  else if ¬ (tipo ∈ ["HTML", "PDF", "IMAGE"]) then
    .error "Invalid tipo provided"
  else
    let init := initial_state url tipo schema mapeo config startIso
    match crash with
    | some e =>
        .ok { init with
                supervision_decision := "ERROR"
                supervision_reasoning := "Pipeline execution failed: " ++ e
                scraping_errors := [e]
                execution_end := endIso
                total_duration := dur }
    | none =>
        let fin := (run_graph fS fP crit llm supCrash init).1
        .ok { fin with execution_end := endIso, total_duration := dur }

/-! ## Temporal analysis (backend/tools/temporal_analysis_tools.py)

Free-text labels are modelled at the level of whitespace-separated
words; the regex scans of `_extract_all_date_patterns` become scans
over the word list, with numeric patterns matching a word split on the
`/ - .` separators. -/

/-- One extracted date dictionary; absent keys are `none`. -/
structure ExtractedDate where
  type : String
  year : Option Int
  month : Option Int
  day : Option Int
  start_month : Option Int
  end_month : Option Int
  confidence : ℚ
  original_text : String
  deriving DecidableEq, Repr

/-- Spanish month vocabulary of the month-year pattern. -/
def monthsMapEs (w : String) : Option Int :=
  match w with
  | "enero" => some 1 | "febrero" => some 2 | "marzo" => some 3
  | "abril" => some 4 | "mayo" => some 5 | "junio" => some 6
  | "julio" => some 7 | "agosto" => some 8 | "septiembre" => some 9
  | "octubre" => some 10 | "noviembre" => some 11 | "diciembre" => some 12
  | _ => none

/-- A 4-digit year token (`\d{4}`). -/
def parseYear4 (w : String) : Option Int :=
  if w.data.length = 4 ∧ w.data.all isDigitChar then (digitsToNat w.data).map (Int.ofNat ·)
  else none

def mkRangeDate (m1 m2 y : Int) (txt : String) : ExtractedDate :=
  { type := "month_range", year := some y, month := none, day := none,
    start_month := some m1, end_month := some m2, confidence := 95/100, original_text := txt }

def mkMonthYearDate (m y : Int) (txt : String) : ExtractedDate :=
  { type := "month_year", year := some y, month := some m, day := none,
    start_month := none, end_month := none, confidence := 9/10, original_text := txt }

/-- Scan for `month [y month] \d{4}` over the lower-cased word list,
non-overlapping matches, resuming after each match; `fuel` bounds the
scan and the wrapper passes the word count, which always suffices. -/
def extractSpanishGoF : Nat → List String → List ExtractedDate
  | 0, _ => []
  | _ + 1, [] => []
  | f + 1, w :: rest =>
      match monthsMapEs w with
      | none => extractSpanishGoF f rest
      | some m1 =>
          match rest with
          | "y" :: w2 :: yw :: rest2 =>
              match monthsMapEs w2, parseYear4 yw with
              | some m2, some yr =>
                  mkRangeDate m1 m2 yr (w ++ " y " ++ w2 ++ " " ++ yw) ::
                    extractSpanishGoF f rest2
              | _, _ => extractSpanishGoF f ("y" :: w2 :: yw :: rest2)
          | yw :: rest2 =>
              match parseYear4 yw with
              | some yr => mkMonthYearDate m1 yr (w ++ " " ++ yw) :: extractSpanishGoF f rest2
              | none => extractSpanishGoF f (yw :: rest2)
          | [] => []

def extractSpanishGo (ws : List String) : List ExtractedDate :=
  extractSpanishGoF ws.length ws

/-- Digit segments of one word split on the `/ - .` separators. -/
def wordSegments (w : String) : List String :=
  (w.data.splitOnP (fun c => c = '/' || c = '-' || c = '.')).map String.mk

def isDigitStr (s : String) (lo hi : Nat) : Bool :=
  s.data ≠ [] && s.data.all isDigitChar && decide (lo ≤ s.data.length) && decide (s.data.length ≤ hi)

def segNat (s : String) : Int := ((digitsToNat s.data).getD 0 : Nat)

/-- Numeric pattern `DD/MM/YYYY` on one word, with the source's bounds
check (month 1-12, day 1-31, year 2020-2030). -/
def wordDMY (w : String) : List ExtractedDate :=
  match wordSegments w with
  | [a, b, c] =>
      if isDigitStr a 1 2 && isDigitStr b 1 2 && isDigitStr c 4 4 then
        let day := segNat a
        let month := segNat b
        let year := segNat c
        if 1 ≤ month ∧ month ≤ 12 ∧ 1 ≤ day ∧ day ≤ 31 ∧ 2020 ≤ year ∧ year ≤ 2030 then
          [{ type := "full_date", year := some year, month := some month, day := some day,
             start_month := none, end_month := none, confidence := 4/5, original_text := w }]
        else []
      else []
  | _ => []

/-- Numeric pattern `YYYY/MM/DD` on one word. -/
def wordYMD (w : String) : List ExtractedDate :=
  match wordSegments w with
  | [a, b, c] =>
      if isDigitStr a 4 4 && isDigitStr b 1 2 && isDigitStr c 1 2 then
        let year := segNat a
        let month := segNat b
        let day := segNat c
        if 1 ≤ month ∧ month ≤ 12 ∧ 1 ≤ day ∧ day ≤ 31 ∧ 2020 ≤ year ∧ year ≤ 2030 then
          [{ type := "full_date", year := some year, month := some month, day := some day,
             start_month := none, end_month := none, confidence := 4/5, original_text := w }]
        else []
      else []
  | _ => []

/-- Numeric pattern `MM/YYYY` on one word (`/` or `-` separator only). -/
def wordMY (w : String) : List ExtractedDate :=
  match (w.data.splitOnP (fun c => c = '/' || c = '-')).map String.mk with
  | [a, b] =>
      if isDigitStr a 1 2 && isDigitStr b 4 4 then
        let month := segNat a
        let year := segNat b
        if 1 ≤ month ∧ month ≤ 12 ∧ 2020 ≤ year ∧ year ≤ 2030 then
          [{ type := "month_year_numeric", year := some year, month := some month, day := none,
             start_month := none, end_month := none, confidence := 7/10, original_text := w }]
        else []
      else []
  | _ => []

/-- `_extract_all_date_patterns`: the Spanish month-year/month-range
pattern on the lower-cased text (when language is "es"), then each
numeric pattern scanned over the text, in pattern order. -/
def extract_all_date_patterns (text : String) (language : String) : List ExtractedDate :=
  (if language = "es" then extractSpanishGo (wordsOf (pyLower text)) else []) ++
  (wordsOf text).flatMap wordDMY ++
  (wordsOf text).flatMap wordYMD ++
  (wordsOf text).flatMap wordMY

/-- Per-date base score of `_calculate_relevance_score` before the
month-range handling: the three strategy branches. A `none` result is a
propagating exception (KeyError on a range date under `current_month`;
ValueError from `date()` under `relevant_period`). -/
def baseScore (d : ExtractedDate) (strategy : String) (ref : PDate) : Option ℚ :=
  if strategy = "latest" then
    some (match d.year with
      | some y =>
          if y ≠ 0 then
            let yd := y - ref.year
            if yd ≥ 0 then
              let s0 : ℚ := 1 - (yd : ℚ) / 10
              match d.month with
              | some m =>
                  if m ≠ 0 then
                    let md := (y - ref.year) * 12 + m - ref.month
                    if md ≥ 0 then s0 + (1/2 - (md : ℚ) * (1/20)) else s0
                  else s0
              | none => s0
            else 0
          else 0
      | none => 0)
  else if strategy = "current_month" then
    (if d.year = some ref.year ∧ d.month = some ref.month then some 1
     else if d.year = some ref.year then
       match d.month with
       | some m => some (ratMax 0 (4/5 - intAbsQ (m - ref.month) * (1/10)))
       | none => none
     else some 0)
  else if strategy = "relevant_period" then
    (match d.year, d.month with
     | some y, some m =>
         if y ≠ 0 ∧ m ≠ 0 then
           if validDate y m 1 then
             let dd := dateOrdinal ⟨y, m, 1⟩ - dateOrdinal ref
             if -30 ≤ dd ∧ dd ≤ 60 then some (1 - intAbsQ dd / 100) else some 0
           else none
         else some 0
     | _, _ => some 0)
  else some 0

/-- `_calculate_relevance_score` with Python's bounded recursion made
explicit: `fuel` is the remaining recursion budget, and exhausting it is
the RecursionError the interpreter raises (`none`). The per-date loop
carries the running maximum; a month-range date re-enters the scorer
one recursion level deeper on a copy whose `month` key is set to the
range's end month, and the final maximum is capped at 1. -/
def calc_relevance_score : Nat → List ExtractedDate → String → PDate → Option ℚ
  | 0, _, _, _ => none
  | f + 1, dates, strategy, ref =>
      if dates = [] then some 0
      else
        (dates.foldlM (fun mx d => do
            let s ← baseScore d strategy ref
            let s2 ←
              if d.type = "month_range" then
                match d.end_month <|> d.start_month with
                | some em =>
                    if em ≠ 0 then
                      (calc_relevance_score f [{ d with month := some em }] strategy ref).map
                        (fun rs => ratMax s (rs + 1/10))
                    else pure s
                | none => pure s
              else pure s
            pure (ratMax mx s2)) (0 : ℚ)).map (fun mx => ratMin mx 1)

/-! ## Content prioritization (backend/tools/content_prioritization_tools.py) -/

/-- Combined-strategy weights (`default_weights`, possibly updated by
the caller). -/
structure RWeights where
  temporal_score : ℚ
  relevance_score : ℚ
  confidence_score : ℚ
  position_score : ℚ
  deriving DecidableEq, Repr

def defaultWeights : RWeights := ⟨4/10, 3/10, 2/10, 1/10⟩

/-- A content item as seen by the ranker: the scores earlier stages may
have attached (absent keys default to 0 via `.get`). -/
structure CItem where
  relevance_score : Option ℚ
  confidence_score : Option ℚ
  deriving DecidableEq, Repr

/-- `_calculate_combined_score`: weighted sum of the item's scores and
the position score, capped at 1. -/
def calculate_combined_score (item : CItem) (w : RWeights) (position total : Nat) : ℚ :=
  let temporal_score := item.relevance_score.getD 0
  let relevance_score := item.confidence_score.getD 0
  let confidence_score := item.confidence_score.getD 0
  let position_score : ℚ := 1 - (position : ℚ) / (total : ℚ)
  ratMin (temporal_score * w.temporal_score + relevance_score * w.relevance_score +
       confidence_score * w.confidence_score + position_score * w.position_score) 1

/-- A ranked item as seen by `select_top_content`. -/
structure RankedItem where
  final_score : Option ℚ
  extracted_dates : List ExtractedDate
  deriving DecidableEq, Repr

/-- Selection criteria with the `.get` defaults of `select_top_content`. -/
structure SelCriteria where
  max_count : Nat
  min_score : ℚ
  require_dates : Bool
  deriving DecidableEq, Repr

structure SelectResult where
  selected : List RankedItem
  rejected : List (RankedItem × List String)
  deriving DecidableEq, Repr

/-- The rejection reasons one loop iteration collects for an item:
score below the minimum, missing required dates, count cap reached
(`selectedCount` is how many items are already selected). -/
def selReasons (c : SelCriteria) (selectedCount : Nat) (item : RankedItem) : List String :=
  (if item.final_score.getD 0 < c.min_score then ["Score below minimum"] else []) ++
  (if c.require_dates ∧ item.extracted_dates = [] then ["No dates found but dates required"] else []) ++
  (if selectedCount ≥ c.max_count then ["Already selected maximum items"] else [])

/-- One iteration of the selection loop: an item with no rejection
reason is selected, otherwise it is rejected with its reasons. -/
def selectStep (c : SelCriteria) (acc : SelectResult) (item : RankedItem) : SelectResult :=
  let reasons := selReasons c acc.selected.length item
  if reasons = [] then { acc with selected := acc.selected ++ [item] }
  else { acc with rejected := acc.rejected ++ [(item, reasons)] }

/-- `select_top_content` over a non-empty ranked list (the empty list is
answered with an error response before the loop). -/
def select_top_content (items : List RankedItem) (c : SelCriteria) : SelectResult :=
  items.foldl (selectStep c) ⟨[], []⟩

/-! ## Deduplicating save (backend/agents/ssreyes_agent.py) -/

/-- A persisted `Evento` row. -/
structure EventoRow where
  titulo : String
  fecha_inicio : PDate
  categoria : String
  precio : String
  ubicacion : Option String
  descripcion : Option String
  hash_contenido : Option String
  fuente_id : Int
  fuente_nombre : String
  url_original : String
  activo : Bool
  deriving DecidableEq, Repr

/-- An incoming normalized event as `save_eventos_to_db_deduped` reads
it from the event dictionary. -/
structure EvtData where
  titulo : String
  fecha_inicio : PDate
  categoria : String
  precio : String
  ubicacion : Option String
  descripcion : Option String
  hash_contenido : Option String
  deriving DecidableEq, Repr

/-- `db.query(Evento).filter(Evento.hash_contenido == h).first()`. -/
def findByHash (db : List EventoRow) (h : String) : Option EventoRow :=
  db.find? (fun r => r.hash_contenido = some h)

/-- The fallback lookup by exact title, start date and location
(the event's missing location compares as the empty string; a row's
NULL location never equals a string). -/
def findByTriple (db : List EventoRow) (e : EvtData) : Option EventoRow :=
  db.find? (fun r =>
    r.titulo = e.titulo ∧ r.fecha_inicio = e.fecha_inicio ∧
    r.ubicacion = some (e.ubicacion.getD ""))

def toRow (e : EvtData) (fid : Int) (fnom urlOrig : String) : EventoRow :=
  { titulo := e.titulo, fecha_inicio := e.fecha_inicio, categoria := e.categoria,
    precio := e.precio, ubicacion := e.ubicacion, descripcion := e.descripcion,
    hash_contenido := e.hash_contenido, fuente_id := fid, fuente_nombre := fnom,
    url_original := urlOrig, activo := true }

structure SaveResult where
  guardados : Nat
  duplicados : Nat
  finalDb : List EventoRow
  deriving DecidableEq, Repr

/-- Whether the fingerprint lookup of the gate fires for this event
(a falsy — absent or empty — fingerprint skips the lookup). -/
def hashDup (db : List EventoRow) (e : EvtData) : Bool :=
  match e.hash_contenido with
  | some h => if h = "" then false else (findByHash db h).isSome
  | none => false

/-- The loop of `save_eventos_to_db_deduped`. The session has autoflush
disabled, so every lookup runs against the pre-existing rows `db`; the
added rows are appended on the final commit. -/
def saveDedupGo (db : List EventoRow) (fid : Int) (fnom urlOrig : String) :
    List EvtData → Nat → Nat → List EventoRow → SaveResult
  | [], s, d, acc => ⟨s, d, db ++ acc⟩
  | e :: rest, s, d, acc =>
      if hashDup db e then saveDedupGo db fid fnom urlOrig rest s (d + 1) acc
      else if (findByTriple db e).isSome then saveDedupGo db fid fnom urlOrig rest s (d + 1) acc
      else saveDedupGo db fid fnom urlOrig rest (s + 1) d (acc ++ [toRow e fid fnom urlOrig])

/-- `save_eventos_to_db_deduped`: fingerprint lookup, then the triple
fallback, then insert; counters for saved and duplicate events. -/
def save_eventos_to_db_deduped (db : List EventoRow) (eventos : List EvtData)
    (fid : Int) (fnom urlOrig : String) : SaveResult :=
  saveDedupGo db fid fnom urlOrig eventos 0 0 []

/-! ## Concrete fixtures used by individual claims -/

/-- Reference date 2025-07-15 from the month-range scoring property. -/
def c2Ref : PDate := ⟨2025, 7, 15⟩

/-- The extracted month-range date of the label "julio y agosto 2025",
with its `month` key left as a parameter (the scorer's range handling
re-enters itself on a copy carrying `month := end_month`). -/
def c2RangeWithMonth (m : Option Int) : ExtractedDate :=
  { type := "month_range", year := some 2025, month := m, day := none,
    start_month := some 7, end_month := some 8, confidence := 95/100,
    original_text := "julio y agosto 2025" }

/-- Combined score as §4.3 of the spec words it: a weighted sum of four
distinct inputs, 0.4 temporal + 0.3 relevance + 0.2 structural
confidence + 0.1 position. -/
def spec_combined_score (t r c p : ℚ) : ℚ :=
  4/10 * t + 3/10 * r + 2/10 * c + 1/10 * p

/-- A legacy stored row lacking a fingerprint. -/
def c9LegacyRow : EventoRow :=
  { titulo := "Concierto De Verano", fecha_inicio := ⟨2025, 7, 1⟩, categoria := "Cultura",
    precio := "Gratis", ubicacion := some "", descripcion := none, hash_contenido := none,
    fuente_id := 1, fuente_nombre := "San Sebastián de los Reyes",
    url_original := "https://example.org/a.pdf", activo := true }

/-- An incoming normalized event whose triple matches `c9LegacyRow`. -/
def c9NewEvt : EvtData :=
  { titulo := "Concierto De Verano", fecha_inicio := ⟨2025, 7, 1⟩, categoria := "Cultura",
    precio := "Gratis", ubicacion := none, descripcion := none,
    hash_contenido := some "abc123" }

/-- Whether the duplicate gate fires for an event against the stored
rows: fingerprint hit or triple hit. -/
def isDupIn (db : List EventoRow) (e : EvtData) : Bool :=
  hashDup db e || (findByTriple db e).isSome

/-- A raw record and mapping that normalize successfully (witness
inputs). -/
def cRawOk : RawRecord := [("titulo", some "taller de pintura"), ("fecha", some "01/07/2025")]

def cMapeoOk : List (String × String) := [("titulo", "titulo"), ("fecha", "fecha_inicio")]

/-- The normalized record produced from `cRawOk`/`cMapeoOk` with a
stub digest. -/
def cEvOut : EvDict :=
  [("titulo", Val.s "Taller De Pintura"),
   ("fecha_inicio", Val.dt ⟨2025, 7, 1⟩),
   ("precio", Val.s "Gratis"),
   ("categoria", Val.s "Formación"),
   ("hash_contenido", Val.s "h")]

/-- The hypotheses of claim C10: every source field mapped onto the
price destination is missing, None, or empty in the raw record. -/
def rawPriceFalsy (raw : RawRecord) (mapeo : List (String × String)) : Prop :=
  ∀ p ∈ mapeo, p.2 = "precio" →
    rawGet raw p.1 = none ∨ rawGet raw p.1 = some none ∨ rawGet raw p.1 = some (some "")

instance (raw : RawRecord) (mapeo : List (String × String)) :
    Decidable (rawPriceFalsy raw mapeo) := by
  unfold rawPriceFalsy; infer_instance

/-! ## Dictionary lemmas -/

theorem dget_dset_same (d : EvDict) (k : String) (v : Val) :
    dget (dset d k v) k = some v := by
  induction d with
  | nil => simp [dset, dget, List.find?]
  | cons kv t ih =>
      obtain ⟨k', v'⟩ := kv
      by_cases h : k' = k
      · simp [dset, h, dget, List.find?]
      · simpa [dset, h, dget, List.find?] using ih

theorem dget_dset_other (d : EvDict) (k k' : String) (v : Val) (h : k' ≠ k) :
    dget (dset d k v) k' = dget d k' := by
  induction d with
  | nil => simp [dset, dget, List.find?, Ne.symm h]
  | cons kv t ih =>
      obtain ⟨k0, v0⟩ := kv
      by_cases h0 : k0 = k
      · subst h0
        simp [dset, dget, List.find?, Ne.symm h]
      · by_cases h1 : k0 = k'
        · subst h1
          simp [dset, dget, List.find?, h0]
        · simpa [dset, h0, dget, List.find?, h1] using ih

theorem normTextField_preserves (e e' : EvDict) (k k' : String) (f : String → String)
    (hne : k' ≠ k) (h : normTextField e k f = some e') :
    dget e' k' = dget e k' := by
  unfold normTextField at h
  cases hg : dget e k with
  | none => rw [hg] at h; cases h; rfl
  | some v =>
      rw [hg] at h
      by_cases ht : pyTruthy v = true
      · simp [ht] at h
        cases v with
        | s t => simp at h; rw [← h]; exact dget_dset_other e k k' _ hne
        | dt d => simp at h
        | nil => simp [pyTruthy] at ht
        | obj o => simp at h
      · simp [ht] at h
        rw [← h]

theorem normDateField_preserves (e : EvDict) (k k' : String) (hne : k' ≠ k) :
    dget (normDateField e k) k' = dget e k' := by
  unfold normDateField
  cases hg : dget e k with
  | none => rfl
  | some v =>
      by_cases ht : pyTruthy v = true
      · simp [ht]
        exact dget_dset_other e k k' _ hne
      · simp [ht]

/-! ## Claim C1: supervisor decision fusion -/

/-- C1: the supervisor's final decision follows the four-row fusion
table in order with first match winning — no minimum → REJECTED; else
APPROVE with a positive valid count → APPROVED; else REJECT → REJECTED;
everything else (ERROR or unexpected decisions included) →
MANUAL_REVIEW. APPROVED carries the automatic filter's valid events as
approved, and every other outcome carries an empty approved set. -/
theorem c1_decision_fusion (auto : AutoValidation) (llm : LLMDecision) :
    (auto.meets_minimum = false → (make_final_decision auto llm).status = "REJECTED") ∧
    (auto.meets_minimum = true → llm.decision = "APPROVE" → 0 < auto.valid_count →
      (make_final_decision auto llm).status = "APPROVED") ∧
    (auto.meets_minimum = true → llm.decision = "REJECT" →
      (make_final_decision auto llm).status = "REJECTED") ∧
    (auto.meets_minimum = true → ¬ (llm.decision = "APPROVE" ∧ 0 < auto.valid_count) →
      llm.decision ≠ "REJECT" → (make_final_decision auto llm).status = "MANUAL_REVIEW") ∧
    ((make_final_decision auto llm).status = "APPROVED" →
      (make_final_decision auto llm).approved_events = auto.valid_events) ∧
    ((make_final_decision auto llm).status ≠ "APPROVED" →
      (make_final_decision auto llm).approved_events = []) := by
  refine ⟨?_, ?_, ?_, ?_, ?_, ?_⟩
  · intro h; simp [make_final_decision, h]
  · intro h1 h2 h3; simp [make_final_decision, h1, h2, h3]
  · intro h1 h2
    have hne : ¬ (llm.decision = "APPROVE" ∧ auto.valid_count > 0) := by
      rintro ⟨ha, _⟩; rw [h2] at ha; exact absurd ha (by decide)
    simp [make_final_decision, h1, h2, hne]
  · intro h1 h2 h3; simp [make_final_decision, h1, h2, h3]
  · have hr : ("REJECTED" : String) ≠ "APPROVED" := by decide
    have hm : ("MANUAL_REVIEW" : String) ≠ "APPROVED" := by decide
    unfold make_final_decision
    split_ifs with h1 h2 h3 <;> intro h <;>
      first
        | rfl
        | exact (hr h).elim
        | exact (hm h).elim
  · unfold make_final_decision
    split_ifs with h1 h2 h3 <;> intro h <;>
      first
        | rfl
        | exact (h rfl).elim

/-- Witness for C1: a concrete validation outcome with one valid event
and an APPROVE judgment is published with exactly that event. -/
theorem c1_decision_fusion_witness :
    (make_final_decision ⟨1, 0, [[("titulo", Val.s "X")]], [], true⟩ ⟨"APPROVE", "ok"⟩).status
      = "APPROVED" ∧
    (make_final_decision ⟨1, 0, [[("titulo", Val.s "X")]], [], true⟩ ⟨"APPROVE", "ok"⟩).approved_events
      = [[("titulo", Val.s "X")]] := by
  refine ⟨(c1_decision_fusion ⟨1, 0, [[("titulo", Val.s "X")]], [], true⟩ ⟨"APPROVE", "ok"⟩).2.1
      rfl rfl (by decide), ?_⟩
  exact (c1_decision_fusion ⟨1, 0, [[("titulo", Val.s "X")]], [], true⟩ ⟨"APPROVE", "ok"⟩).2.2.2.2.1
    ((c1_decision_fusion ⟨1, 0, [[("titulo", Val.s "X")]], [], true⟩ ⟨"APPROVE", "ok"⟩).2.1
      rfl rfl (by decide))

/-! ## Claim C2: month-range scoring -/

theorem c2_range_score_diverges_aux :
    ∀ fuel m, calc_relevance_score fuel [c2RangeWithMonth m] "latest" c2Ref = none := by
  intro fuel
  induction fuel with
  | zero => intro m; rfl
  | succ f ih =>
      intro m
      have h8 := ih (some 8)
      simp only [c2RangeWithMonth, c2Ref] at h8
      simp [calc_relevance_score, List.foldlM, baseScore, c2RangeWithMonth, c2Ref, h8]

/-- C2: under strategy "latest" with reference date 2025-07-15, the
label "julio y agosto 2025" extracts to the single month-range date,
and the label "julio 2025" to the single month-year date; but scoring
the month-range date never terminates — for every recursion budget the
scorer re-enters itself on an identical month-range copy and exhausts
the budget (Python's RecursionError), so the range label receives no
relevance score at all, while the single-month label scores 1.0. The
claimed strictly-higher range score is therefore never produced. -/
theorem c2_month_range_scoring (fuel : Nat) :
    extract_all_date_patterns "julio y agosto 2025" "es" = [c2RangeWithMonth none] ∧
    extract_all_date_patterns "julio 2025" "es" = [mkMonthYearDate 7 2025 "julio 2025"] ∧
    calc_relevance_score fuel [c2RangeWithMonth none] "latest" c2Ref = none ∧
    calc_relevance_score 2 [mkMonthYearDate 7 2025 "julio 2025"] "latest" c2Ref = some 1 := by
  refine ⟨rfl, rfl, c2_range_score_diverges_aux fuel none, ?_⟩
  simp [calc_relevance_score, baseScore, mkMonthYearDate, c2Ref, List.foldlM, ratMin, ratMax]
  norm_num

/-! ## Claim C5: the scraping continuation guard -/

/-- C5: the run leaves scraping for processing exactly when the scraped
data is non-empty and there are at most two scraping errors; otherwise
the conditional edge routes to the error handler, so with an empty
scraped-data list the error handler is always reached and the
processing node never is. -/
theorem c5_scraping_guard (s : SState) (fP : SState → Except String SState)
    (crit : Criteria) (llm : Except String LLMResp) (crash : Option String) :
    (should_continue_to_processing s = "continue" ↔
      (s.scraped_data ≠ [] ∧ s.scraping_errors.length ≤ 2)) ∧
    (PNode.processing ∈ (graph_from_scraping fP crit llm crash s).2 ↔
      (s.scraped_data ≠ [] ∧ s.scraping_errors.length ≤ 2)) ∧
    (s.scraped_data = [] →
      PNode.error_handler ∈ (graph_from_scraping fP crit llm crash s).2 ∧
      PNode.processing ∉ (graph_from_scraping fP crit llm crash s).2) := by
  have hguard : should_continue_to_processing s = "continue" ↔
      (s.scraped_data ≠ [] ∧ s.scraping_errors.length ≤ 2) := by
    unfold should_continue_to_processing
    split_ifs with h1 h2
    · simp only [true_iff]
      exact ⟨h1.1, h1.2 ▸ by omega⟩
    · simp only [true_iff]
      exact h2
    · constructor
      · intro h; exact absurd h (by decide)
      · intro h; exact absurd h h2
  have hmem : PNode.processing ∈ (graph_from_scraping fP crit llm crash s).2 ↔
      should_continue_to_processing s = "continue" := by
    unfold graph_from_scraping
    by_cases h1 : should_continue_to_processing s = "continue"
    · rw [if_pos h1]
      by_cases h2 : should_continue_to_supervision (processing_node fP s) = "continue"
      · rw [if_pos h2]; simp [h1]
      · rw [if_neg h2]; simp [h1]
    · rw [if_neg h1]
      simp only [List.mem_singleton]
      constructor
      · intro h; exact absurd h (by decide)
      · intro h; exact absurd h h1
  refine ⟨hguard, hmem.trans hguard, ?_⟩
  intro hempty
  have hno : ¬ (s.scraped_data ≠ [] ∧ s.scraping_errors.length ≤ 2) := by
    rintro ⟨h, _⟩; exact h hempty
  have herr : should_continue_to_processing s ≠ "continue" := by
    intro h; exact hno (hguard.mp h)
  constructor
  · unfold graph_from_scraping
    split_ifs <;> simp_all
  · intro hmem2
    exact hno (hmem.mp hmem2 |> hguard.mp)

/-- Witness for C5: a freshly initialized state has no scraped data,
and its continuation routes through the error handler only. -/
theorem c5_scraping_guard_witness :
    PNode.error_handler ∈
      (graph_from_scraping (fun s => .ok s) ⟨[], [], 15, 1⟩ (.ok ⟨none, none⟩) none
        (initial_state "https://x" "HTML" [] [] [] "t")).2 ∧
    PNode.processing ∉
      (graph_from_scraping (fun s => .ok s) ⟨[], [], 15, 1⟩ (.ok ⟨none, none⟩) none
        (initial_state "https://x" "HTML" [] [] [] "t")).2 :=
  (c5_scraping_guard (initial_state "https://x" "HTML" [] [] [] "t")
    (fun s => .ok s) ⟨[], [], 15, 1⟩ (.ok ⟨none, none⟩) none).2.2 rfl

/-! ## Claim C6: the combined ranking score -/

/-- C6: the code's combined score is not the spec's weighted sum of
three distinct score inputs — an item carrying only a structural
confidence of 1 (no temporal and no separate relevance input) scores
0.6 because the 0.3 relevance weight is applied to the confidence
input as well, where the claimed formula with distinct inputs yields
0.3. -/
theorem c6_combined_score_duplicates_confidence :
    calculate_combined_score ⟨none, some 1⟩ defaultWeights 0 1 = 3/5 ∧
    spec_combined_score 0 0 1 1 = 3/10 ∧
    (3/5 : ℚ) ≠ 3/10 := by
  refine ⟨?_, ?_, by norm_num⟩
  · simp [calculate_combined_score, defaultWeights, ratMin]
    norm_num
  · simp [spec_combined_score]
    norm_num

/-! ## Claim C7: selection threshold, cap and rejection reasons -/

/-- Counterexample for C7: an item whose final score exactly equals the
minimum score, with the count cap not yet reached, is nevertheless
rejected (with a reason) when the criteria require extracted dates and
the item has none — the claim's unconditional boundary selection fails. -/
theorem c7_boundary_counterexample :
    (select_top_content [⟨some 0, []⟩] ⟨3, 0, true⟩).selected = [] ∧
    (select_top_content [⟨some 0, []⟩] ⟨3, 0, true⟩).rejected =
      [(⟨some 0, []⟩, ["No dates found but dates required"])] := by
  constructor <;> decide

/-! ## Claim C8: price normalization -/

/-- C8: "Entrada libre" normalizes to the "Gratis" sentinel and
"7,50 €" to "7.50€", but the unparseable "a consultar" is 11 characters
long, shorter than the 20-character cutoff, so it passes through
unchanged instead of becoming "Consultar precio"; in general a
free-word price short-circuits to "Gratis", else the first numeric
token is formatted with the comma converted and the euro sign appended,
else the input passes through when shorter than 20 characters and is
replaced by "Consultar precio" otherwise. -/
theorem c8_price_normalization :
    normalize_price "Entrada libre" = "Gratis" ∧
    normalize_price "7,50 €" = "7.50€" ∧
    normalize_price "a consultar" = "a consultar" ∧
    (∀ p, p ≠ "" → freeWords.any (fun w => pyIn w (pyStrip (pyLower p))) = true →
      normalize_price p = "Gratis") ∧
    (∀ p tok, p ≠ "" → freeWords.any (fun w => pyIn w (pyStrip (pyLower p))) = false →
      firstNumericToken p = some tok →
      normalize_price p = pyReplace tok "," "." ++ "€") ∧
    (∀ p, p ≠ "" → freeWords.any (fun w => pyIn w (pyStrip (pyLower p))) = false →
      firstNumericToken p = none →
      normalize_price p = (if strLen p < 20 then p else "Consultar precio")) := by
  refine ⟨by decide, by decide, by decide, ?_, ?_, ?_⟩
  · intro p hne hfree
    simp [normalize_price, hne, hfree]
  · intro p tok hne hfree htok
    simp [normalize_price, hne, hfree, htok]
  · intro p hne hfree htok
    simp [normalize_price, hne, hfree, htok]

/-- Witness for C8: a short unparseable price passes through unchanged. -/
theorem c8_price_normalization_witness :
    normalize_price "precio especial" = "precio especial" := by
  have h := c8_price_normalization.2.2.2.2.2 "precio especial" (by decide) (by decide) (by decide)
  simpa using h

/-- Counterexample for C8's "a consultar" example: the code returns the
input itself, not the "Consultar precio" sentinel. -/
theorem c8_a_consultar_counterexample :
    normalize_price "a consultar" = "a consultar" ∧
    normalize_price "a consultar" ≠ "Consultar precio" := by
  constructor <;> decide

/-! ## Claim C9: the deduplication gate -/

/-- Counterexample for C9's backfill conjunct: a legacy row without a
fingerprint is found by the triple lookup and the incoming event is
skipped, but the stored row's fingerprint stays missing — the save path
performs no backfill. -/
theorem c9_no_backfill_counterexample :
    save_eventos_to_db_deduped [c9LegacyRow] [c9NewEvt] 1 "SS" "https://example.org/a.pdf" =
      ⟨0, 1, [c9LegacyRow]⟩ ∧
    c9LegacyRow.hash_contenido = none ∧
    c9NewEvt.hash_contenido = some "abc123" := by
  refine ⟨by decide, rfl, rfl⟩

theorem selReasons_eq_nil (c : SelCriteria) (n : Nat) (x : RankedItem) :
    selReasons c n x = [] ↔
      (¬ (x.final_score.getD 0 < c.min_score) ∧
       ¬ (c.require_dates = true ∧ x.extracted_dates = []) ∧ n < c.max_count) := by
  unfold selReasons
  split_ifs with h1 h2 h3 <;> simp_all

theorem selectFold_counts (c : SelCriteria) :
    ∀ (l : List RankedItem) (acc : SelectResult),
      (l.foldl (selectStep c) acc).selected.length + (l.foldl (selectStep c) acc).rejected.length
        = acc.selected.length + acc.rejected.length + l.length := by
  intro l
  induction l with
  | nil => intro acc; simp
  | cons x t ih =>
      intro acc
      rw [List.foldl_cons, ih]
      unfold selectStep
      by_cases h : selReasons c acc.selected.length x = [] <;> simp [h] <;> omega

theorem selectFold_rejected_reasons (c : SelCriteria) :
    ∀ (l : List RankedItem) (acc : SelectResult),
      (∀ p ∈ acc.rejected, p.2 ≠ []) →
      ∀ p ∈ (l.foldl (selectStep c) acc).rejected, p.2 ≠ [] := by
  intro l
  induction l with
  | nil => intro acc hacc; exact hacc
  | cons x t ih =>
      intro acc hacc
      rw [List.foldl_cons]
      apply ih
      unfold selectStep
      by_cases h : selReasons c acc.selected.length x = []
      · simp only [h, if_pos]
        exact hacc
      · rw [if_neg h]
        intro p hp
        rcases List.mem_append.mp hp with hp1 | hp2
        · exact hacc p hp1
        · rw [List.mem_singleton.mp hp2]
          exact h

theorem selectFold_selected_score (c : SelCriteria) :
    ∀ (l : List RankedItem) (acc : SelectResult),
      (∀ it ∈ acc.selected, ¬ (it.final_score.getD 0 < c.min_score)) →
      ∀ it ∈ (l.foldl (selectStep c) acc).selected, ¬ (it.final_score.getD 0 < c.min_score) := by
  intro l
  induction l with
  | nil => intro acc hacc; exact hacc
  | cons x t ih =>
      intro acc hacc
      rw [List.foldl_cons]
      apply ih
      unfold selectStep
      by_cases h : selReasons c acc.selected.length x = []
      · rw [if_pos h]
        intro it hit
        rcases List.mem_append.mp hit with h1 | h2
        · exact hacc it h1
        · rw [List.mem_singleton.mp h2]
          exact ((selReasons_eq_nil c acc.selected.length x).mp h).1
      · rw [if_neg h]
        exact hacc

theorem selectFold_cap (c : SelCriteria) :
    ∀ (l : List RankedItem) (acc : SelectResult),
      acc.selected.length ≤ c.max_count →
      (l.foldl (selectStep c) acc).selected.length ≤ c.max_count := by
  intro l
  induction l with
  | nil => intro acc hacc; exact hacc
  | cons x t ih =>
      intro acc hacc
      rw [List.foldl_cons]
      apply ih
      unfold selectStep
      by_cases h : selReasons c acc.selected.length x = []
      · rw [if_pos h]
        have := ((selReasons_eq_nil c acc.selected.length x).mp h).2.2
        simp
        omega
      · rw [if_neg h]
        exact hacc

theorem selectFold_selected_mono (c : SelCriteria) :
    ∀ (l : List RankedItem) (acc : SelectResult) (it : RankedItem),
      it ∈ acc.selected → it ∈ (l.foldl (selectStep c) acc).selected := by
  intro l
  induction l with
  | nil => intro acc it h; exact h
  | cons x t ih =>
      intro acc it h
      rw [List.foldl_cons]
      apply ih
      unfold selectStep
      by_cases hr : selReasons c acc.selected.length x = []
      · rw [if_pos hr]
        exact List.mem_append.mpr (Or.inl h)
      · rw [if_neg hr]
        exact h

/-- C7 (amended): selection never drops an item silently (every item
lands in selected or reason-annotated rejected), rejected items always
carry a reason, a selected item never scores strictly below the
minimum, at most max_count items are selected, and an item whose score
is at least the minimum (inclusive boundary) is selected whenever the
cap is not yet reached at its turn and the require-dates check does not
apply (criteria without require_dates, or the item carries extracted
dates). -/
theorem c7_selection_threshold_cap (items : List RankedItem) (c : SelCriteria) :
    ((select_top_content items c).selected.length
        + (select_top_content items c).rejected.length = items.length) ∧
    (∀ p ∈ (select_top_content items c).rejected, p.2 ≠ []) ∧
    (∀ it ∈ (select_top_content items c).selected, ¬ (it.final_score.getD 0 < c.min_score)) ∧
    ((select_top_content items c).selected.length ≤ c.max_count) ∧
    (∀ i (h : i < items.length),
      ¬ (items[i].final_score.getD 0 < c.min_score) →
      (c.require_dates = false ∨ items[i].extracted_dates ≠ []) →
      (select_top_content (items.take i) c).selected.length < c.max_count →
      items[i] ∈ (select_top_content items c).selected) := by
  refine ⟨?_, ?_, ?_, ?_, ?_⟩
  · simpa using selectFold_counts c items ⟨[], []⟩
  · exact selectFold_rejected_reasons c items ⟨[], []⟩ (by simp)
  · exact selectFold_selected_score c items ⟨[], []⟩ (by simp)
  · exact selectFold_cap c items ⟨[], []⟩ (by simp)
  · intro i h hscore hdates hcap
    have hsplit : items.take i ++ items.drop i = items := List.take_append_drop i items
    have hdrop : items.drop i = items[i] :: items.drop (i + 1) := List.drop_eq_getElem_cons h
    have hfold : select_top_content items c =
        (items.drop i).foldl (selectStep c) (select_top_content (items.take i) c) := by
      unfold select_top_content
      rw [← List.foldl_append, hsplit]
    rw [hfold, hdrop, List.foldl_cons]
    apply selectFold_selected_mono
    have hr : selReasons c (select_top_content (items.take i) c).selected.length items[i] = [] := by
      apply (selReasons_eq_nil c _ items[i]).mpr
      refine ⟨hscore, ?_, hcap⟩
      rintro ⟨ha, hb⟩
      rcases hdates with hf | hne
      · rw [hf] at ha; exact absurd ha (by decide)
      · exact hne hb
    unfold selectStep
    rw [if_pos hr]
    simp

/-- Witness for C7: an item scoring exactly the minimum, with the cap
not reached and no dates requirement, is selected. -/
theorem c7_selection_threshold_cap_witness :
    (⟨some 0, []⟩ : RankedItem) ∈
      (select_top_content [⟨some 0, []⟩] ⟨3, 0, false⟩).selected := by
  have h := (c7_selection_threshold_cap [⟨some 0, []⟩] ⟨3, 0, false⟩).2.2.2.2
    0 (by decide) (by simp) (Or.inl rfl) (by decide)
  simpa using h

theorem saveDedupGo_spec (db : List EventoRow) (fid : Int) (fnom urlOrig : String) :
    ∀ (evts : List EvtData) (s d : Nat) (acc : List EventoRow),
      saveDedupGo db fid fnom urlOrig evts s d acc =
        ⟨s + (evts.filter (fun e => !isDupIn db e)).length,
         d + (evts.filter (fun e => isDupIn db e)).length,
         db ++ acc ++ (evts.filter (fun e => !isDupIn db e)).map
           (fun e => toRow e fid fnom urlOrig)⟩ := by
  intro evts
  induction evts with
  | nil => intro s d acc; simp [saveDedupGo]
  | cons e t ih =>
      intro s d acc
      by_cases h1 : hashDup db e = true
      · have hd : isDupIn db e = true := by simp [isDupIn, h1]
        simp only [saveDedupGo, h1, if_true, ih, List.filter_cons, hd]
        simp
        omega
      · by_cases h2 : (findByTriple db e).isSome = true
        · have hd : isDupIn db e = true := by simp [isDupIn, h2]
          simp only [saveDedupGo, h1, if_false, h2, if_true, ih, List.filter_cons, hd]
          simp [h1]
          omega
        · have hd : isDupIn db e = false := by simp [isDupIn, h1, h2]
          simp only [saveDedupGo, h1, h2, if_false, ih, List.filter_cons, hd]
          simp [h1, h2]
          omega

/-- C9 (amended): the gate skips an incoming event exactly when the
fingerprint lookup or the (title, startDate, location) fallback lookup
hits an existing row, counts it as a duplicate, and inserts it
otherwise; the pre-existing rows pass through unmodified, so a legacy
row matched without a fingerprint keeps its missing fingerprint (no
backfill happens on the save path — backfill lives only in the
separate cleanup utility). -/
theorem c9_dedup_gate (db : List EventoRow) (evts : List EvtData)
    (fid : Int) (fnom urlOrig : String) :
    ((save_eventos_to_db_deduped db evts fid fnom urlOrig).finalDb
        = db ++ (evts.filter (fun e => !isDupIn db e)).map (fun e => toRow e fid fnom urlOrig)) ∧
    ((save_eventos_to_db_deduped db evts fid fnom urlOrig).duplicados
        = (evts.filter (fun e => isDupIn db e)).length) ∧
    ((save_eventos_to_db_deduped db evts fid fnom urlOrig).guardados
        = (evts.filter (fun e => !isDupIn db e)).length) ∧
    ((save_eventos_to_db_deduped db evts fid fnom urlOrig).finalDb.take db.length = db) := by
  have h := saveDedupGo_spec db fid fnom urlOrig evts 0 0 []
  unfold save_eventos_to_db_deduped
  rw [h]
  refine ⟨by simp, by simp, by simp, ?_⟩
  simp [List.take_left]

/-! ## Normalizer structure lemmas (claims C3 and C10) -/

theorem normDateField_truthy (e : EvDict) (k : String) (v : Val)
    (h : dget (normDateField e k) k = some v) (ht : pyTruthy v = true) : ∃ d, v = .dt d := by
  unfold normDateField at h
  cases hg : dget e k with
  | none => rw [hg] at h; rw [hg] at h; exact absurd h (by simp)
  | some v0 =>
      simp only [hg] at h
      by_cases ht0 : pyTruthy v0 = true
      · rw [if_pos ht0] at h
        rw [dget_dset_same] at h
        cases hd : normalize_date v0 with
        | some d =>
            rw [hd] at h
            exact ⟨d, (Option.some_injective _ h).symm⟩
        | none =>
            rw [hd] at h
            have hv : v = Val.nil := (Option.some_injective _ h).symm
            rw [hv] at ht
            exact absurd ht (by decide)
      · rw [if_neg ht0] at h
        rw [hg] at h
        have hv : v = v0 := (Option.some_injective _ h).symm
        rw [hv] at ht
        exact absurd ht ht0

theorem normalize_fields_fecha (e e2 : EvDict) (h : normalize_fields e = some e2)
    (v : Val) (hv : dget e2 "fecha_inicio" = some v) (ht : pyTruthy v = true) :
    ∃ d, v = .dt d := by
  unfold normalize_fields at h
  cases h1 : normTextField e "titulo" normalize_title with
  | none => rw [h1] at h; exact absurd h (by simp)
  | some eA =>
      simp only [h1] at h
      cases h2 : normalizePriceVal ((dget eA "precio").getD (.s "")) with
      | none => rw [h2] at h; exact absurd h (by simp)
      | some p =>
          simp only [h2] at h
          set eD := normDateField (normDateField
              (dset (dset eA "precio" (.s p)) "categoria"
                (.s (normalize_category (dset eA "precio" (.s p))))) "fecha_inicio")
              "fecha_fin" with heD
          cases h3 : normTextField eD "ubicacion" normalize_location with
          | none => rw [h3] at h; exact absurd h (by simp)
          | some eF =>
              simp only [h3] at h
              have hp1 : dget e2 "fecha_inicio" = dget eF "fecha_inicio" :=
                normTextField_preserves eF e2 "descripcion" "fecha_inicio" _ (by decide) h
              have hp2 : dget eF "fecha_inicio" = dget eD "fecha_inicio" :=
                normTextField_preserves eD eF "ubicacion" "fecha_inicio" _ (by decide) h3
              have hp3 : dget eD "fecha_inicio" =
                  dget (normDateField
                    (dset (dset eA "precio" (.s p)) "categoria"
                      (.s (normalize_category (dset eA "precio" (.s p))))) "fecha_inicio")
                    "fecha_inicio" := by
                rw [heD]
                exact normDateField_preserves _ "fecha_fin" "fecha_inicio" (by decide)
              have hfinal : dget (normDateField
                  (dset (dset eA "precio" (.s p)) "categoria"
                    (.s (normalize_category (dset eA "precio" (.s p))))) "fecha_inicio")
                  "fecha_inicio" = some v := by
                rw [← hp3, ← hp2, ← hp1]; exact hv
              exact normDateField_truthy _ "fecha_inicio" v hfinal ht

theorem normalize_fields_precio_missing (e e2 : EvDict) (h : normalize_fields e = some e2)
    (hp : dget e "precio" = none) : dget e2 "precio" = some (.s "Gratis") := by
  unfold normalize_fields at h
  cases h1 : normTextField e "titulo" normalize_title with
  | none => rw [h1] at h; exact absurd h (by simp)
  | some eA =>
      simp only [h1] at h
      have hA : dget eA "precio" = none := by
        rw [normTextField_preserves e eA "titulo" "precio" _ (by decide) h1]
        exact hp
      have hpv : normalizePriceVal ((dget eA "precio").getD (.s "")) = some "Gratis" := by
        rw [hA]; rfl
      simp only [hpv] at h
      set eB := dset eA "precio" (.s "Gratis") with heB
      set eC := dset eB "categoria" (.s (normalize_category eB)) with heC
      set eD := normDateField eC "fecha_inicio" with heD
      set eE := normDateField eD "fecha_fin" with heE
      cases h3 : normTextField eE "ubicacion" normalize_location with
      | none => rw [h3] at h; exact absurd h (by simp)
      | some eF =>
          simp only [h3] at h
          have q1 : dget e2 "precio" = dget eF "precio" :=
            normTextField_preserves eF e2 "descripcion" "precio" _ (by decide) h
          have q2 : dget eF "precio" = dget eE "precio" :=
            normTextField_preserves eE eF "ubicacion" "precio" _ (by decide) h3
          have q3 : dget eE "precio" = dget eD "precio" := by
            rw [heE]; exact normDateField_preserves eD "fecha_fin" "precio" (by decide)
          have q4 : dget eD "precio" = dget eC "precio" := by
            rw [heD]; exact normDateField_preserves eC "fecha_inicio" "precio" (by decide)
          have q5 : dget eC "precio" = dget eB "precio" := by
            rw [heC]; exact dget_dset_other eB "categoria" "precio" _ (by decide)
          have q6 : dget eB "precio" = some (.s "Gratis") := by
            rw [heB]; exact dget_dset_same eA "precio" _
          rw [q1, q2, q3, q4, q5, q6]

theorem applyMappedFold_precio_none (raw : RawRecord) :
    ∀ (mapeo : List (String × String)) (acc : Option EvDict),
      (∀ p ∈ mapeo, p.2 = "precio" →
        rawGet raw p.1 = none ∨ rawGet raw p.1 = some none ∨ rawGet raw p.1 = some (some "")) →
      (∀ ea, acc = some ea → dget ea "precio" = none) →
      ∀ e, mapeo.foldl (fun acc sd => applyMappedField acc sd.1 sd.2 raw) acc = some e →
      dget e "precio" = none := by
  intro mapeo
  induction mapeo with
  | nil => intro acc _ hacc e h; exact hacc e h
  | cons sd t ih =>
      intro acc hft hacc e h
      rw [List.foldl_cons] at h
      refine ih _ (fun p hp => hft p (List.mem_cons_of_mem _ hp)) ?_ e h
      intro ea hea
      unfold applyMappedField at hea
      cases hcc : acc with
      | none => rw [hcc] at hea; exact absurd hea (by simp)
      | some e0 =>
          simp only [hcc] at hea
          have h0 : dget e0 "precio" = none := hacc e0 hcc
          cases hvv : (rawGet raw sd.1).bind id with
          | none =>
              simp only [hvv] at hea
              rw [← Option.some_injective _ hea]
              exact h0
          | some s =>
              simp only [hvv] at hea
              by_cases hs : s = ""
              · rw [if_pos hs] at hea
                rw [← Option.some_injective _ hea]
                exact h0
              · rw [if_neg hs] at hea
                by_cases hdot : pyIn "." sd.2 = true
                · simp only [hdot, if_true] at hea
                  by_cases hhead : (pySplit sd.2 ".").head? = some "datos_extra"
                  · rw [if_pos hhead] at hea
                    cases hde : dget e0 "datos_extra" with
                    | none =>
                        rw [hde] at hea
                        rw [← Option.some_injective _ hea,
                          dget_dset_other e0 "datos_extra" "precio" _ (by decide)]
                        exact h0
                    | some vde =>
                        cases vde with
                        | obj kvs =>
                            rw [hde] at hea
                            rw [← Option.some_injective _ hea,
                              dget_dset_other e0 "datos_extra" "precio" _ (by decide)]
                            exact h0
                        | s v => rw [hde] at hea; exact absurd hea (by simp)
                        | dt v => rw [hde] at hea; exact absurd hea (by simp)
                        | nil => rw [hde] at hea; exact absurd hea (by simp)
                  · rw [if_neg hhead] at hea
                    rw [← Option.some_injective _ hea]
                    exact h0
                · simp only [hdot] at hea
                  have hne : sd.2 ≠ "precio" := by
                    intro hdst
                    have := hft sd (List.mem_cons_self sd t) hdst
                    rcases this with hr | hr | hr <;>
                      simp [hr, Option.bind] at hvv
                    exact hs hvv.symm
                  simp only [Bool.false_eq_true, if_false] at hea
                  rw [← Option.some_injective _ hea,
                    dget_dset_other e0 sd.2 "precio" _ (Ne.symm hne)]
                  exact h0

theorem foldExtras_other (e e2 : EvDict) (extras : List (String × Option String))
    (k : String) (hk : k ≠ "datos_extra")
    (h : foldExtras e extras = some e2) :
    dget e2 k = dget e k := by
  unfold foldExtras at h
  cases hde : dget e "datos_extra" with
  | none =>
      simp only [hde] at h
      by_cases hx : List.foldl (fun a kv => sset a kv.1 (kv.2.getD "")) [] extras ≠ []
      · rw [if_pos hx] at h
        rw [← Option.some_injective _ h]
        exact dget_dset_other e "datos_extra" k _ hk
      · rw [if_neg hx] at h
        rw [← Option.some_injective _ h]
  | some v =>
      cases v with
      | obj kvs =>
          simp only [hde] at h
          by_cases hx : List.foldl (fun a kv => sset a kv.1 (kv.2.getD "")) kvs extras ≠ []
          · rw [if_pos hx] at h
            rw [← Option.some_injective _ h]
            exact dget_dset_other e "datos_extra" k _ hk
          · rw [if_neg hx] at h
            rw [← Option.some_injective _ h]
      | s sv =>
          simp only [hde] at h
          by_cases hx : extras ≠ []
          · rw [if_pos hx] at h; exact absurd h (by simp)
          · rw [if_neg hx] at h
            by_cases ht : pyTruthy (Val.s sv) = true
            · rw [if_pos ht] at h
              rw [← Option.some_injective _ h]
              exact dget_dset_other e "datos_extra" k _ hk
            · rw [if_neg ht] at h
              rw [← Option.some_injective _ h]
      | dt dv =>
          simp only [hde] at h
          by_cases hx : extras ≠ []
          · rw [if_pos hx] at h; exact absurd h (by simp)
          · rw [if_neg hx] at h
            by_cases ht : pyTruthy (Val.dt dv) = true
            · rw [if_pos ht] at h
              rw [← Option.some_injective _ h]
              exact dget_dset_other e "datos_extra" k _ hk
            · rw [if_neg ht] at h
              rw [← Option.some_injective _ h]
      | nil =>
          simp only [hde] at h
          by_cases hx : extras ≠ []
          · rw [if_pos hx] at h; exact absurd h (by simp)
          · rw [if_neg hx] at h
            by_cases ht : pyTruthy Val.nil = true
            · rw [if_pos ht] at h
              rw [← Option.some_injective _ h]
              exact dget_dset_other e "datos_extra" k _ hk
            · rw [if_neg ht] at h
              rw [← Option.some_injective _ h]

theorem apply_field_mapping_precio_none (raw : RawRecord) (mapeo : List (String × String))
    (hf : rawPriceFalsy raw mapeo) (e : EvDict)
    (h : apply_field_mapping raw mapeo = some e) : dget e "precio" = none := by
  unfold apply_field_mapping at h
  cases hfold : mapeo.foldl (fun acc sd => applyMappedField acc sd.1 sd.2 raw)
      (some ([] : EvDict)) with
  | none => rw [hfold] at h; exact absurd h (by simp)
  | some e1 =>
      simp only [hfold] at h
      have h1 : dget e1 "precio" = none :=
        applyMappedFold_precio_none raw mapeo (some []) hf
          (fun ea hea => by rw [← Option.some_injective _ hea]; rfl) e1 hfold
      rw [foldExtras_other e1 e _ "precio" (by decide) h]
      exact h1

/-! ## Claim C3: the normalized-event invariant -/

/-- C3: whenever `normalize_event` returns a record, that record's
title is a string of length at least 3, its start date is present as a
parsed date, and its category belongs to the fixed valid-category set. -/
theorem c3_normalized_event_invariant (sha : String → String) (raw : RawRecord)
    (mapeo : List (String × String)) (ev : EvDict)
    (h : normalize_event sha raw mapeo = some ev) :
    (∃ t, dget ev "titulo" = some (.s t) ∧ 3 ≤ strLen t) ∧
    (∃ d, dget ev "fecha_inicio" = some (.dt d)) ∧
    (∃ c, dget ev "categoria" = some (.s c) ∧ c ∈ CATEGORIAS_VALIDAS) := by
  unfold normalize_event at h
  cases ha : apply_field_mapping raw mapeo with
  | none => rw [ha] at h; exact absurd h (by simp)
  | some e =>
      simp only [ha] at h
      cases hn : normalize_fields e with
      | none => rw [hn] at h; exact absurd h (by simp)
      | some e2 =>
          simp only [hn] at h
          by_cases hv : validate_event e2 = true
          · rw [if_pos hv] at h
            have hev : ev = dset e2 "hash_contenido" (.s (sha (hashKeyContent e2))) :=
              (Option.some_injective _ h).symm
            unfold validate_event at hv
            simp only [Bool.and_eq_true] at hv
            obtain ⟨⟨htit, hfec⟩, hcat⟩ := hv
            refine ⟨?_, ?_, ?_⟩
            · cases hg : dget e2 "titulo" with
              | none => rw [hg] at htit; exact absurd htit (by decide)
              | some tv =>
                  cases tv with
                  | s t =>
                      rw [hg] at htit
                      simp only [Bool.and_eq_true, decide_eq_true_eq] at htit
                      refine ⟨t, ?_, htit.2⟩
                      rw [hev, dget_dset_other e2 "hash_contenido" "titulo" _ (by decide)]
                      exact hg
                  | dt dv => rw [hg] at htit; simp at htit
                  | nil => rw [hg] at htit; simp at htit
                  | obj o => rw [hg] at htit; simp at htit
            · cases hg : dget e2 "fecha_inicio" with
              | none =>
                  rw [hg] at hfec
                  exact absurd hfec (by decide)
              | some v =>
                  rw [hg] at hfec
                  simp only [Option.getD_some] at hfec
                  obtain ⟨d, hd⟩ := normalize_fields_fecha e e2 hn v hg hfec
                  refine ⟨d, ?_⟩
                  rw [hev, dget_dset_other e2 "hash_contenido" "fecha_inicio" _ (by decide), hg, hd]
            · cases hg : dget e2 "categoria" with
              | none => rw [hg] at hcat; exact absurd hcat (by decide)
              | some cv =>
                  cases cv with
                  | s c =>
                      rw [hg] at hcat
                      simp only [decide_eq_true_eq] at hcat
                      refine ⟨c, ?_, hcat⟩
                      rw [hev, dget_dset_other e2 "hash_contenido" "categoria" _ (by decide)]
                      exact hg
                  | dt dv => rw [hg] at hcat; simp at hcat
                  | nil => rw [hg] at hcat; simp at hcat
                  | obj o => rw [hg] at hcat; simp at hcat
          · rw [if_neg hv] at h
            exact absurd h (by simp)

/-- Witness for C3: a concrete raw record normalizes successfully and
the invariant holds of its output. -/
theorem c3_normalized_event_invariant_witness :
    (∃ t, dget cEvOut "titulo" = some (.s t) ∧ 3 ≤ strLen t) ∧
    (∃ d, dget cEvOut "fecha_inicio" = some (.dt d)) ∧
    (∃ c, dget cEvOut "categoria" = some (.s c) ∧ c ∈ CATEGORIAS_VALIDAS) :=
  c3_normalized_event_invariant (fun _ => "h") cRawOk cMapeoOk cEvOut (by decide)

/-! ## Claim C10: absent prices normalize to the free sentinel -/

/-- C10: for every raw record whose price source fields are missing,
None, or empty, a successfully normalized event carries the "Gratis"
sentinel as its price. -/
theorem c10_missing_price_is_gratis (sha : String → String) (raw : RawRecord)
    (mapeo : List (String × String)) (ev : EvDict)
    (hf : rawPriceFalsy raw mapeo)
    (h : normalize_event sha raw mapeo = some ev) :
    dget ev "precio" = some (.s "Gratis") := by
  unfold normalize_event at h
  cases ha : apply_field_mapping raw mapeo with
  | none => rw [ha] at h; exact absurd h (by simp)
  | some e =>
      simp only [ha] at h
      cases hn : normalize_fields e with
      | none => rw [hn] at h; exact absurd h (by simp)
      | some e2 =>
          simp only [hn] at h
          by_cases hv : validate_event e2 = true
          · rw [if_pos hv] at h
            have hev : ev = dset e2 "hash_contenido" (.s (sha (hashKeyContent e2))) :=
              (Option.some_injective _ h).symm
            have hpe : dget e "precio" = none :=
              apply_field_mapping_precio_none raw mapeo hf e ha
            have hg : dget e2 "precio" = some (.s "Gratis") :=
              normalize_fields_precio_missing e e2 hn hpe
            rw [hev, dget_dset_other e2 "hash_contenido" "precio" _ (by decide)]
            exact hg
          · rw [if_neg hv] at h
            exact absurd h (by simp)

/-- Witness for C10: the concrete raw record has no price source at
all, and its normalized event is priced "Gratis". -/
theorem c10_missing_price_is_gratis_witness :
    dget cEvOut "precio" = some (.s "Gratis") :=
  c10_missing_price_is_gratis (fun _ => "h") cRawOk cMapeoOk cEvOut (by decide) (by decide)

/-! ## Claim C4: entry preconditions and guaranteed terminal decision -/

theorem make_final_decision_status (auto : AutoValidation) (llm : LLMDecision) :
    (make_final_decision auto llm).status = "REJECTED" ∨
    (make_final_decision auto llm).status = "APPROVED" ∨
    (make_final_decision auto llm).status = "MANUAL_REVIEW" := by
  unfold make_final_decision
  split_ifs <;> simp

theorem supervise_quality_decision (crit : Criteria) (llm : Except String LLMResp)
    (crash : Option String) (s : SState) :
    (supervise_quality crit llm crash s).supervision_decision ∈
      (["APPROVED", "REJECTED", "MANUAL_REVIEW", "ERROR"] : List String) := by
  unfold supervise_quality
  cases crash with
  | some e => simp
  | none =>
      rcases make_final_decision_status (automatic_validation s.processed_events crit)
          (llm_supervision llm) with h | h | h <;> simp [h]

theorem graph_from_scraping_decision (fP : SState → Except String SState) (crit : Criteria)
    (llm : Except String LLMResp) (crash : Option String) (s1 : SState) :
    (graph_from_scraping fP crit llm crash s1).1.supervision_decision ∈
      (["APPROVED", "REJECTED", "MANUAL_REVIEW", "ERROR"] : List String) := by
  unfold graph_from_scraping
  by_cases h1 : should_continue_to_processing s1 = "continue"
  · rw [if_pos h1]
    by_cases h2 : should_continue_to_supervision (processing_node fP s1) = "continue"
    · rw [if_pos h2]
      exact supervise_quality_decision crit llm crash _
    · rw [if_neg h2]
      simp [error_handler_node]
  · rw [if_neg h1]
    simp [error_handler_node]

theorem run_graph_fst (fS fP : SState → Except String SState) (crit : Criteria)
    (llm : Except String LLMResp) (crash : Option String) (s0 : SState) :
    (run_graph fS fP crit llm crash s0).1 =
      (graph_from_scraping fP crit llm crash (scraping_node fS s0)).1 := by
  unfold run_graph
  rcases hg : graph_from_scraping fP crit llm crash (scraping_node fS s0) with ⟨sf, tr⟩
  simp [hg]

/-- C4: the entry point raises a precondition fault (an `Except.error`,
before any run state is built) exactly when the URL lacks an http(s)
scheme or the source type is outside the HTML/PDF/IMAGE enum; and for
every input passing the precondition — whatever the agents, the
judgment call, a supervisor crash or a catastrophic graph failure do —
the invocation returns a terminal state whose supervision decision is
one of APPROVED, REJECTED, MANUAL_REVIEW, ERROR. -/
theorem c4_entry_precondition_and_termination
    (fS fP : SState → Except String SState) (crit : Criteria) (llm : Except String LLMResp)
    (supCrash crash : Option String) (startIso endIso : String) (dur : ℚ)
    (url tipo : String) (schema mapeo config : List (String × String)) :
    ((∃ err, execute_scraping_pipeline fS fP crit llm supCrash crash startIso endIso dur
        url tipo schema mapeo config = .error err) ↔
      (¬ (pyStartsWith url "http://" = true ∨ pyStartsWith url "https://" = true) ∨
        tipo ∉ (["HTML", "PDF", "IMAGE"] : List String))) ∧
    ((pyStartsWith url "http://" = true ∨ pyStartsWith url "https://" = true) →
      tipo ∈ (["HTML", "PDF", "IMAGE"] : List String) →
      ∃ s, execute_scraping_pipeline fS fP crit llm supCrash crash startIso endIso dur
          url tipo schema mapeo config = .ok s ∧
        s.supervision_decision ∈ (["APPROVED", "REJECTED", "MANUAL_REVIEW", "ERROR"] : List String)) := by
  by_cases hu : (pyStartsWith url "http://" = true ∨ pyStartsWith url "https://" = true)
  · by_cases ht : tipo ∈ (["HTML", "PDF", "IMAGE"] : List String)
    · constructor
      · constructor
        · rintro ⟨err, herr⟩
          unfold execute_scraping_pipeline at herr
          rw [if_neg (not_not_intro hu), if_neg (not_not_intro ht)] at herr
          cases crash <;> simp at herr
        · rintro (hnu | hnt)
          · exact absurd hu hnu
          · exact absurd ht hnt
      · intro _ _
        unfold execute_scraping_pipeline
        rw [if_neg (not_not_intro hu), if_neg (not_not_intro ht)]
        cases crash with
        | some e => exact ⟨_, rfl, by simp⟩
        | none =>
            refine ⟨_, rfl, ?_⟩
            show (run_graph fS fP crit llm supCrash
              (initial_state url tipo schema mapeo config startIso)).1.supervision_decision ∈ _
            rw [run_graph_fst]
            exact graph_from_scraping_decision fP crit llm supCrash _
    · constructor
      · constructor
        · intro _; exact Or.inr ht
        · intro _
          refine ⟨"Invalid tipo provided", ?_⟩
          unfold execute_scraping_pipeline
          rw [if_neg (not_not_intro hu), if_pos ht]
      · intro _ ht2; exact absurd ht2 ht
  · constructor
    · constructor
      · intro _; exact Or.inl hu
      · intro _
        refine ⟨"Invalid URL provided", ?_⟩
        unfold execute_scraping_pipeline
        rw [if_pos hu]
    · intro hu2; exact absurd hu2 hu

/-- Witness for C4: a valid HTTPS/HTML invocation whose scraping agent
always raises still terminates with a decision from the enum. -/
theorem c4_entry_precondition_and_termination_witness :
    ∃ s, execute_scraping_pipeline (fun _ => .error "boom") (fun s => .ok s)
        ⟨[], [], 15, 1⟩ (.ok ⟨none, none⟩) none none "t0" "t1" 0
        "https://example.org" "HTML" [] [] [] = .ok s ∧
      s.supervision_decision ∈ (["APPROVED", "REJECTED", "MANUAL_REVIEW", "ERROR"] : List String) :=
  (c4_entry_precondition_and_termination (fun _ => .error "boom") (fun s => .ok s)
      ⟨[], [], 15, 1⟩ (.ok ⟨none, none⟩) none none "t0" "t1" 0
      "https://example.org" "HTML" [] [] []).2 (by decide) (by decide)

end EventosMadrid
